import Mathlib

/-! # Service discovery node (`pkg/discovery`)

A shallow embedding of the discovery engine of `p2p-service-discover`:
the `ServiceNode` of `pkg/discovery/node.go`, the two background loops of
`pkg/discovery/discovery.go` and the types of `pkg/types`.

Modelling conventions.

* `map[K]V` is an association list with pairwise distinct keys (`AList`).
  A Go map has no iteration order, so results obtained by ranging over a
  map are only ever described through membership and multiplicity.
* `services` holds `*ServiceInfo`; the loops mutate the pointee in place,
  which is `AList.replace` on the map (the key set is untouched).
* `time.Time` is a number of nanoseconds, `time.Duration` likewise;
  `Time.Sub` saturates at the ends of the `int64` range as in Go.
* Calls into libp2p (provider lookup, gossip join, message receive, JSON and
  peer-id decoding, the peerstore) are inputs of the step that makes them.
* Every step runs under `n.mu`, so a step is atomic; a `go` statement adds
  the started loop to `goroutines`. A loop only stops when `n.ctx` is done:
  it then returns at its first `select` without handling anything, so a
  started loop is running exactly as long as `ctxDone` is false.
* A nil-pointer dereference (a panic) is the result `none`.
-/

namespace Discovery

/-! ## Types -/

/-- The identity `peer.ID` of a peer. -/
abbrev PeerID := Nat

/-- A `multiaddr.Multiaddr`, known through its `String()` rendering. -/
structure Multiaddr where
  str : String
deriving DecidableEq, Repr

/-- The method `Multiaddr.String()`. -/
def Multiaddr.String (a : Multiaddr) : String := a.str

/-- An instant `time.Time`, in nanoseconds. -/
abbrev Time := Int

/-- A `time.Duration`, in nanoseconds. -/
abbrev Duration := Int

/-- The constant `minDuration` of package `time`. -/
def minDuration : Duration := -(2 ^ 63)

/-- The constant `maxDuration` of package `time`. -/
def maxDuration : Duration := 2 ^ 63 - 1

/-- The constant `time.Hour`. -/
def Hour : Duration := 3600 * 1000000000

/-- The method `t.Sub(u)`: the difference `t - u`, saturated to the range of
a `Duration`. -/
def Time.Sub (t u : Time) : Duration :=
  if t - u < minDuration then minDuration
  else if maxDuration < t - u then maxDuration
  else t - u

/-- The struct `types.PeerData`. -/
structure PeerData where
  LastSeen : Time
  Addrs : List String
deriving DecidableEq, Repr

/-- The struct `types.ServiceInfo`. -/
structure ServiceInfo where
  Topic : String
  Peers : AList (fun _ : PeerID => PeerData)
deriving DecidableEq

/-- The struct `types.PeerInfo`. -/
structure PeerInfo where
  ID : PeerID
  Addrs : List String
  LastSeen : Time
deriving DecidableEq, Repr

/-- The struct `peer.AddrInfo` yielded by a provider lookup. -/
structure AddrInfo where
  ID : PeerID
  Addrs : List Multiaddr
deriving DecidableEq, Repr

/-- The struct `announcement`, as `json.Unmarshal` fills it; `PeerID` holds
the outcome of `peer.Decode` on the `peer_id` field (`none` when it fails). -/
structure announcement where
  PeerID : Option PeerID
  Timestamp : Time
deriving DecidableEq, Repr

/-- A received `pubsub.Message`: the forwarding peer and the payload; `Data`
holds the outcome of `json.Unmarshal` on the payload (`none` when it fails). -/
structure Message where
  ReceivedFrom : PeerID
  Data : Option announcement
deriving DecidableEq, Repr

/-- The address book `n.host.Peerstore().Addrs`. -/
abbrev Peerstore := PeerID → List Multiaddr

/-- The loops started by `go` statements in `RegisterService`. -/
inductive Goroutine where
  | dhtDiscoveryLoop (serviceTopic : String)
  | announceLoop (serviceTopic : String)
  | pubsubDiscoveryLoop (serviceTopic : String)
deriving DecidableEq, Repr

/-- The struct `Config`. -/
structure Config where
  EnableDHT : Bool
  EnablePubSub : Bool
  EnablePeerExchange : Bool
  PeerTTL : Duration
deriving DecidableEq, Repr

/-- The function `DefaultConfig`. -/
def DefaultConfig : Config :=
  { EnableDHT := true, EnablePubSub := true, EnablePeerExchange := true, PeerTTL := 3 * Hour }

/-- The constant `PeerExchangeProtocolID`. -/
def PeerExchangeProtocolID : String := "/peer-exchange/1.0.1"

/-- The struct `ServiceNode`: `hostID` is `n.host.ID()`, `dht` and `pubsub`
tell whether the respective pointer is non-nil, `goroutines` lists the loops
started so far, `ctxDone` tells whether `n.ctx` is done (cancelled by
`n.cancel` or through its parent context). -/
structure ServiceNode where
  hostID : PeerID
  dht : Bool
  pubsub : Bool
  services : AList (fun _ : String => ServiceInfo)
  peerTTL : Duration
  goroutines : List Goroutine
  ctxDone : Bool := false
deriving DecidableEq

/-! ## Operations -/

/-- The function `convertAddrs`. -/
def convertAddrs (addrs : List Multiaddr) : List String :=
  addrs.map Multiaddr.String

/-- The method `ServiceNode.RegisterService`. `join` is the outcome of
`n.pubsub.Join(serviceTopic)`, consulted only when gossip is enabled. The
returned node is the state the call leaves behind, also when it fails. -/
def RegisterService (n : ServiceNode) (serviceTopic : String) (join : Except String Unit) :
    Option String × ServiceNode :=
  if (n.services.lookup serviceTopic).isSome then
    (some ("service " ++ serviceTopic ++ " already registered"), n)
  else
    let service : ServiceInfo := { Topic := serviceTopic, Peers := ∅ }
    let n1 : ServiceNode :=
      if n.dht then
        { n with goroutines := n.goroutines ++ [Goroutine.dhtDiscoveryLoop serviceTopic] }
      else n
    if n1.pubsub then
      match join with
      | .error err => (some ("failed to join topic: " ++ err), n1)
      | .ok _ =>
        let started := [Goroutine.announceLoop serviceTopic, Goroutine.pubsubDiscoveryLoop serviceTopic]
        let n2 : ServiceNode := { n1 with goroutines := n1.goroutines ++ started }
        (none, { n2 with services := n2.services.insert serviceTopic service })
    else
      (none, { n1 with services := n1.services.insert serviceTopic service })

/-- The method `ServiceNode.initProtocols`, with the outcomes of `dht.New`,
`pubsub.NewGossipSub` and the gossip join of the peer-exchange topic. Binding
the peer-exchange handler in the service registry cannot fail and does not
touch the discovery state. -/
def initProtocols (n : ServiceNode) (cfg : Config) (dhtNew pubsubNew : Except String Unit)
    (join : Except String Unit) : Except String ServiceNode :=
  let r1 : Except String ServiceNode :=
    if cfg.EnableDHT then
      match dhtNew with
      | .error err => .error err
      | .ok _ => .ok { n with dht := true }
    else .ok n
  match r1 with
  | .error err => .error err
  | .ok n1 =>
    let r2 : Except String ServiceNode :=
      if cfg.EnablePubSub then
        match pubsubNew with
        | .error err => .error err
        | .ok _ => .ok { n1 with pubsub := true }
      else .ok n1
    match r2 with
    | .error err => .error err
    | .ok n2 =>
      if cfg.EnablePeerExchange then
        match RegisterService n2 PeerExchangeProtocolID join with
        | (some err, _) => .error err
        | (none, n3) => .ok n3
      else .ok n2

/-- The function `NewServiceNode` for the host identity `h`. -/
def NewServiceNode (h : PeerID) (cfg : Config) (dhtNew pubsubNew : Except String Unit)
    (join : Except String Unit) : Except String ServiceNode :=
  initProtocols
    { hostID := h, dht := false, pubsub := false, services := ∅, peerTTL := cfg.PeerTTL,
      goroutines := [] }
    cfg dhtNew pubsubNew join

/-- The body of the range loop of `FindPeers` for one map entry. -/
def findPeersBody (n : ServiceNode) (now : Time) (peerstore : Peerstore)
    (peers : List PeerInfo) (e : Sigma (fun _ : PeerID => PeerData)) : List PeerInfo :=
  if Time.Sub now e.2.LastSeen < n.peerTTL then
    peers ++ [{ ID := e.1, Addrs := (peerstore e.1).map Multiaddr.String, LastSeen := e.2.LastSeen }]
  else peers

/-- The method `ServiceNode.FindPeers`, read at time `now` (`time.Now()`)
against the address book `peerstore`. -/
def FindPeers (n : ServiceNode) (serviceTopic : String) (now : Time) (peerstore : Peerstore) :
    Except String (List PeerInfo) :=
  match n.services.lookup serviceTopic with
  | none => .error ("service not found: " ++ serviceTopic)
  | some service => .ok (service.Peers.entries.foldl (findPeersBody n now peerstore) [])

/-- The method `ServiceNode.CheckServiceProvider`, read at time `now`
(`time.Since(t)` is `time.Now().Sub(t)`). -/
def CheckServiceProvider (n : ServiceNode) (peerID : PeerID) (serviceTopic : String)
    (now : Time) : Except String Bool :=
  match n.services.lookup serviceTopic with
  | none => .error ("service not found: " ++ serviceTopic)
  | some service =>
    match service.Peers.lookup peerID with
    | none => .ok false
    | some data => .ok (decide (Time.Sub now data.LastSeen < n.peerTTL))

/-- The body of the range loop of `dhtDiscoveryLoop` for one lookup result,
acting on the `ServiceInfo` the loop holds. -/
def dhtStore (hostID : PeerID) (now : Time) (service : ServiceInfo) (p : AddrInfo) :
    ServiceInfo :=
  if p.ID ≠ hostID then
    let data : PeerData := { LastSeen := now, Addrs := convertAddrs p.Addrs }
    { service with Peers := service.Peers.insert p.ID data }
  else service

/-- One tick of `ServiceNode.dhtDiscoveryLoop`: `found` is the outcome of the
provider lookup, `now` the time read after it. When the topic has no
`ServiceInfo` the first result that is not the node itself dereferences nil. -/
def dhtDiscoveryLoop (n : ServiceNode) (serviceTopic : String)
    (found : Except String (List AddrInfo)) (now : Time) : Option ServiceNode :=
  match found with
  | .error _ => some n
  | .ok peers =>
    match n.services.lookup serviceTopic with
    | some service =>
      let service' : ServiceInfo := peers.foldl (dhtStore n.hostID now) service
      some { n with services := n.services.replace serviceTopic service' }
    | none => if peers.all (fun p => decide (p.ID = n.hostID)) then some n else none

/-- One iteration of `ServiceNode.pubsubDiscoveryLoop`: `next` is the outcome
of `sub.Next`, `peerstore` the address book at that moment. -/
def pubsubDiscoveryLoop (n : ServiceNode) (serviceTopic : String)
    (next : Except String Message) (peerstore : Peerstore) : Option ServiceNode :=
  match next with
  | .error _ => some n
  | .ok msg =>
    if msg.ReceivedFrom = n.hostID then some n
    else
      match msg.Data with
      | none => some n
      | some ann =>
        match ann.PeerID with
        | none => some n
        | some peerID =>
          let addrs := peerstore peerID
          if addrs.length = 0 then some n
          else
            let convertedAddrs := convertAddrs addrs
            match n.services.lookup serviceTopic with
            | none => none
            | some service =>
              let data : PeerData := { LastSeen := ann.Timestamp, Addrs := convertedAddrs }
              let service' : ServiceInfo := { service with Peers := service.Peers.insert peerID data }
              some { n with services := n.services.replace serviceTopic service' }

/-- States a node goes through: starting from `n0`, any sequence of
`RegisterService` calls, of ticks of a started routing-lookup loop and of
messages handled by a started gossip loop. -/
inductive Reachable (n0 : ServiceNode) : ServiceNode → Prop where
  | init : Reachable n0 n0
  | register {n : ServiceNode} (serviceTopic : String) (join : Except String Unit) :
      Reachable n0 n → Reachable n0 (RegisterService n serviceTopic join).2
  | tick {n n' : ServiceNode} (serviceTopic : String) (found : Except String (List AddrInfo))
      (now : Time) :
      Reachable n0 n → Goroutine.dhtDiscoveryLoop serviceTopic ∈ n.goroutines →
      dhtDiscoveryLoop n serviceTopic found now = some n' → Reachable n0 n'
  | gossip {n n' : ServiceNode} (serviceTopic : String) (next : Except String Message)
      (peerstore : Peerstore) :
      Reachable n0 n → Goroutine.pubsubDiscoveryLoop serviceTopic ∈ n.goroutines →
      pubsubDiscoveryLoop n serviceTopic next peerstore = some n' → Reachable n0 n'

/-- No directory of the node has an entry for the node itself. -/
def SelfExcluded (n : ServiceNode) : Prop :=
  ∀ (serviceTopic : String) (service : ServiceInfo),
    n.services.lookup serviceTopic = some service → service.Peers.lookup n.hostID = none

/-- The record stored for `id` in the directory of `serviceTopic`, if any. -/
def ServiceNode.record (n : ServiceNode) (serviceTopic : String) (id : PeerID) :
    Option PeerData :=
  (n.services.lookup serviceTopic).bind (fun service => service.Peers.lookup id)

/-- An address book that knows one address of peer `1` and nothing else. -/
def bookOfOne : Peerstore :=
  fun p => if p = 1 then [{ str := "/ip4/10.0.0.1/tcp/4001" }] else []

/-- A gossip message forwarded by peer `2` whose payload announces peer `1`
with timestamp `100`. -/
def echoedAnnouncement : Message :=
  { ReceivedFrom := 2, Data := some { PeerID := some 1, Timestamp := 100 } }

/-- A node with identity `1`, both discovery sources enabled and no topic
registered yet. -/
def bareNode : ServiceNode :=
  { hostID := 1, dht := true, pubsub := true, services := ∅, peerTTL := 3 * Hour,
    goroutines := [] }

/-- The node `bareNode` after a successful registration of `"svc"`. -/
def demoNode : ServiceNode :=
  (RegisterService bareNode "svc" (.ok ())).2

/-- One observation of a peer by a background loop of a topic: a gossip
message handled against an address book, or a successful provider lookup
completed at `now`. -/
inductive Observation where
  | gossip (msg : Message) (peerstore : Peerstore)
  | lookup (peers : List AddrInfo) (now : Time)

/-- The loop iteration that handles an observation. -/
def observe (n : ServiceNode) (serviceTopic : String) : Observation → Option ServiceNode
  | .gossip msg peerstore => pubsubDiscoveryLoop n serviceTopic (.ok msg) peerstore
  | .lookup peers now => dhtDiscoveryLoop n serviceTopic (.ok peers) now

/-- The observation carries the update `(id, addrs, seenAt)` to a node whose
identity is `self`: a gossip message from another forwarder announcing `id`
at `seenAt` while the address book knows the non-empty `addrs`, or a lookup
completed at `seenAt` in which `id`, not the node itself, occurs last with
`addrs`. -/
def Observation.Updates (self id : PeerID) (addrs : List String) (seenAt : Time) :
    Observation → Prop
  | .gossip msg peerstore =>
    msg.ReceivedFrom ≠ self ∧ msg.Data = some { PeerID := some id, Timestamp := seenAt } ∧
      peerstore id ≠ [] ∧ convertAddrs (peerstore id) = addrs
  | .lookup peers now =>
    id ≠ self ∧ now = seenAt ∧
      ∃ p, peers.reverse.find? (fun p => decide (p.ID = id)) = some p ∧
        convertAddrs p.Addrs = addrs

/-- An address book that knows `addr` for peer `7` and nothing else. -/
def bookOfSeven (addr : String) : Peerstore :=
  fun p => if p = 7 then [{ str := addr }] else []

/-- A gossip message forwarded by peer `2` announcing peer `7` at `seenAt`. -/
def announceSeven (seenAt : Time) : Message :=
  { ReceivedFrom := 2, Data := some { PeerID := some 7, Timestamp := seenAt } }

/-- The entry `FindPeers` emits for one map entry, if the entry is live. -/
def liveEntry (n : ServiceNode) (now : Time) (peerstore : Peerstore)
    (e : Sigma (fun _ : PeerID => PeerData)) : Option PeerInfo :=
  if Time.Sub now e.2.LastSeen < n.peerTTL then
    some { ID := e.1, Addrs := (peerstore e.1).map Multiaddr.String, LastSeen := e.2.LastSeen }
  else none

/-- The node `demoNode` with time-to-live `ttl`, after a routing lookup
completed at time `0` that found peer `7`. -/
def seenSeven (ttl : Duration) : ServiceNode :=
  (dhtDiscoveryLoop { demoNode with peerTTL := ttl } "svc"
    (.ok [{ ID := 7, Addrs := [{ str := "/ip4/10.0.0.7/tcp/1" }] }]) 0).getD demoNode

/-! ## The service registry (`pkg/discovery/service`) -/

/-- A `service.ServiceHandler`: the value its `Protocol()` returns and the
identity of its `HandleStream` implementation. -/
structure ServiceHandler where
  protocolID : String
  handleStream : Nat
deriving DecidableEq, Repr

/-- The method `Protocol()` of a handler. -/
def ServiceHandler.Protocol (handler : ServiceHandler) : String := handler.protocolID

/-- A `network.Stream` as `host.NewStream` returns it. -/
structure Stream where
  id : Nat
deriving DecidableEq, Repr

/-- An `srpc.RpcPeer`: the session wrapped around a stream. -/
structure RpcPeer where
  stream : Stream
deriving DecidableEq, Repr

/-- The call `srpc.NewRpcPeer(stream.NewLibP2PStream(s))`. -/
def NewRpcPeer (s : Stream) : RpcPeer := { stream := s }

/-- The `interface{}` a client constructor returns: a client of some kind
bound to a session. -/
structure Client where
  kind : String
  peer : RpcPeer
deriving DecidableEq, Repr

/-- The struct `registry` together with what it does to its host:
`streamHandlers` are the bindings made through `r.host.SetStreamHandler`,
`newStreams` the calls of `r.host.NewStream` made so far. -/
structure registry where
  streamHandlers : AList (fun _ : String => ServiceHandler)
  newStreams : List (PeerID × String)
  clientConstructors : AList (fun _ : String => RpcPeer → Client)

/-- The function `NewRegistry`. -/
def NewRegistry : registry :=
  { streamHandlers := ∅, newStreams := [], clientConstructors := ∅ }

/-- The method `registry.RegisterService`: it sets the stream handler of the
handler's protocol id and returns no error. -/
def registry.RegisterService (r : registry) (handler : ServiceHandler) :
    Option String × registry :=
  let protocolID := handler.Protocol
  (none, { r with streamHandlers := r.streamHandlers.insert protocolID handler })

/-- The method `registry.RegisterClientConstructor`. -/
def registry.RegisterClientConstructor (r : registry) (protocol : String)
    (constructor : RpcPeer → Client) : registry :=
  { r with clientConstructors := r.clientConstructors.insert protocol constructor }

/-- The method `registry.NewClient`. `newStream` is the outcome of
`r.host.NewStream(ctx, targetPeer, ptcID)`, consulted only when that call is
made. The returned registry is the state the call leaves behind. -/
def registry.NewClient (r : registry) (ptcID : String) (targetPeer : PeerID)
    (newStream : Except String Stream) : Except String Client × registry :=
  match r.clientConstructors.lookup ptcID with
  | none => (.error ("no client constructor registered for protocol: " ++ ptcID), r)
  | some constructor =>
    let r' : registry := { r with newStreams := r.newStreams ++ [(targetPeer, ptcID)] }
    match newStream with
    | .error err => (.error err, r')
    | .ok s => (.ok (constructor (NewRpcPeer s)), r')

/-- The method `ServiceNode.NewServiceClient`, on the node's registry. -/
def NewServiceClient (serviceRegistry : registry) (protocol : String) (peer : PeerID)
    (newStream : Except String Stream) : Except String Client × registry :=
  serviceRegistry.NewClient protocol peer newStream

/-- The method `ServiceNode.RegisterServiceHandler`, on the node and its
registry; `join` is the outcome of the gossip join made by `RegisterService`. -/
def RegisterServiceHandler (n : ServiceNode) (serviceRegistry : registry)
    (handler : ServiceHandler) (join : Except String Unit) :
    Option String × ServiceNode × registry :=
  match RegisterService n handler.Protocol join with
  | (some err, n') => (some err, n', serviceRegistry)
  | (none, n') =>
    let bound := serviceRegistry.RegisterService handler
    (bound.1, n', bound.2)

/-- The client constructor bound by `initProtocols`:
`proto.NewServicePeerClient`. -/
def NewServicePeerClient (peer : RpcPeer) : Client :=
  { kind := "ServicePeerClient", peer := peer }

/-- The handler `peerexchange.NewHandler(n)`. -/
def peerExchangeHandler : ServiceHandler :=
  { protocolID := PeerExchangeProtocolID, handleStream := 0 }

/-- A handler of the protocol `"svc"`. -/
def svcHandler : ServiceHandler :=
  { protocolID := "svc", handleStream := 1 }

/-- An earlier handler of the protocol `"svc"`. -/
def oldSvcHandler : ServiceHandler :=
  { protocolID := "svc", handleStream := 2 }

/-- A registry in which the protocol `"svc"` is bound to `oldSvcHandler`. -/
def boundRegistry : registry :=
  (NewRegistry.RegisterService oldSvcHandler).2

/-- One operation of a node: the three calls of the discovery interface and
one iteration of each directory-writing loop. -/
inductive Operation where
  | registerService (serviceTopic : String) (join : Except String Unit)
  | findPeers (serviceTopic : String) (now : Time) (peerstore : Peerstore)
  | checkServiceProvider (peerID : PeerID) (serviceTopic : String) (now : Time)
  | dhtTick (serviceTopic : String) (found : Except String (List AddrInfo)) (now : Time)
  | gossip (serviceTopic : String) (next : Except String Message) (peerstore : Peerstore)

/-- The state an operation leaves behind, `none` when it panics. `FindPeers`
and `CheckServiceProvider` only read the node (they take the read lock and
assign nothing), so they leave it as it is. -/
def Operation.run (n : ServiceNode) : Operation → Option ServiceNode
  | .registerService serviceTopic join => some (RegisterService n serviceTopic join).2
  | .findPeers _ _ _ => some n
  | .checkServiceProvider _ _ _ => some n
  | .dhtTick serviceTopic found now => dhtDiscoveryLoop n serviceTopic found now
  | .gossip serviceTopic next peerstore => pubsubDiscoveryLoop n serviceTopic next peerstore

/-- A loop iteration acts on a registered topic; the interface calls are not
restricted. -/
def Operation.OnRegistered (n : ServiceNode) : Operation → Prop
  | .dhtTick serviceTopic _ _ => (n.services.lookup serviceTopic).isSome = true
  | .gossip serviceTopic _ _ => (n.services.lookup serviceTopic).isSome = true
  | _ => True

/-- Nothing registered or stored in `n` is missing from `n'`: every topic
registered in `n` is registered in `n'` and every identity with a record in a
directory of `n` has a record in that directory of `n'`. -/
def NoEviction (n n' : ServiceNode) : Prop :=
  (∀ topic, (n.services.lookup topic).isSome = true →
    (n'.services.lookup topic).isSome = true) ∧
  (∀ topic id, (n.record topic id).isSome = true → (n'.record topic id).isSome = true)

/-- The method `ServiceNode.Close`, with the outcomes of `n.dht.Close()` and
`n.host.Close()`: it cancels `n.ctx` first. -/
def Close (n : ServiceNode) (dhtClose hostClose : Except String Unit) :
    Option String × ServiceNode :=
  let n1 : ServiceNode := { n with ctxDone := true }
  if n1.dht then
    match dhtClose with
    | .error err => (some err, n1)
    | .ok _ =>
      match hostClose with
      | .error err => (some err, n1)
      | .ok _ => (none, n1)
  else
    match hostClose with
    | .error err => (some err, n1)
    | .ok _ => (none, n1)

/-- The topic a loop was started for. -/
def Goroutine.serviceTopic : Goroutine → String
  | .dhtDiscoveryLoop serviceTopic => serviceTopic
  | .announceLoop serviceTopic => serviceTopic
  | .pubsubDiscoveryLoop serviceTopic => serviceTopic

/-- The loop `g` is running: it has been started and `n.ctx` is not done.
Every loop selects on `n.ctx.Done()` before it handles anything, and the
ticker of a loop first fires a minute after its start, so a loop whose
context is done returns without handling a tick or a message. -/
def ServiceNode.Running (n : ServiceNode) (g : Goroutine) : Prop :=
  g ∈ n.goroutines ∧ n.ctxDone = false

/-- The outcomes `n.pubsub.Join(serviceTopic)` can have where `RegisterService`
calls it. The node's `PubSub` is private, built on `n.ctx` without options,
and a topic is joined only after the duplicate check, so the join is refused
only when `n.ctx` is done. -/
def joinPossible (n : ServiceNode) : Except String Unit → Bool
  | .ok _ => true
  | .error _ => n.ctxDone

/-- The runs of a node from `n0`: `RegisterService` calls with a join outcome
the gossip substrate can give, iterations of running loops, and `Close`. -/
inductive Runs (n0 : ServiceNode) : ServiceNode → Prop where
  | init : Runs n0 n0
  | register {n : ServiceNode} (serviceTopic : String) (join : Except String Unit) :
      Runs n0 n → joinPossible n join = true →
      Runs n0 (RegisterService n serviceTopic join).2
  | tick {n n' : ServiceNode} (serviceTopic : String) (found : Except String (List AddrInfo))
      (now : Time) :
      Runs n0 n → n.Running (Goroutine.dhtDiscoveryLoop serviceTopic) →
      dhtDiscoveryLoop n serviceTopic found now = some n' → Runs n0 n'
  | gossip {n n' : ServiceNode} (serviceTopic : String) (next : Except String Message)
      (peerstore : Peerstore) :
      Runs n0 n → n.Running (Goroutine.pubsubDiscoveryLoop serviceTopic) →
      pubsubDiscoveryLoop n serviceTopic next peerstore = some n' → Runs n0 n'
  | close {n : ServiceNode} (dhtClose hostClose : Except String Unit) :
      Runs n0 n → Runs n0 (Close n dhtClose hostClose).2

/-- Every started loop belongs to a registered topic, as long as `n.ctx` is
not done. -/
def LoopsRegistered (n : ServiceNode) : Prop :=
  n.ctxDone = false →
    ∀ g, g ∈ n.goroutines → (n.services.lookup g.serviceTopic).isSome = true

/-- The node `bareNode` after `Close`. -/
def closedNode : ServiceNode :=
  (Close bareNode (.ok ()) (.ok ())).2

/-! ## Maps -/

section MapLemmas

variable {α : Type} {β : Type} [DecidableEq α]

theorem kreplace_cons_eq (a : α) (b v : β) (l : List (Sigma (fun _ : α => β))) :
    List.kreplace a b (⟨a, v⟩ :: l) = ⟨a, b⟩ :: l := by
  unfold List.kreplace
  exact List.lookmap_cons_some _ l (by simp)

theorem kreplace_cons_ne {a k : α} (h : a ≠ k) (b v : β) (l : List (Sigma (fun _ : α => β))) :
    List.kreplace a b (⟨k, v⟩ :: l) = ⟨k, v⟩ :: List.kreplace a b l := by
  unfold List.kreplace
  exact List.lookmap_cons_none _ l (by simp [h])

theorem dlookup_kreplace_ne {a a' : α} (h : a' ≠ a) (b : β) (l : List (Sigma (fun _ : α => β))) :
    List.dlookup a' (List.kreplace a b l) = List.dlookup a' l := by
  induction l with
  | nil => rfl
  | cons s l ih =>
    obtain ⟨k, v⟩ := s
    by_cases hk : a = k
    · subst hk
      rw [kreplace_cons_eq, List.dlookup_cons_ne _ _ h, List.dlookup_cons_ne _ _ h]
    · rw [kreplace_cons_ne hk]
      by_cases hk' : a' = k
      · subst hk'
        rw [List.dlookup_cons_eq, List.dlookup_cons_eq]
      · rw [List.dlookup_cons_ne _ _ hk', List.dlookup_cons_ne _ _ hk', ih]

theorem dlookup_kreplace_self {a : α} (b : β) (l : List (Sigma (fun _ : α => β)))
    (h : a ∈ l.keys) : List.dlookup a (List.kreplace a b l) = some b := by
  induction l with
  | nil => simp at h
  | cons s l ih =>
    obtain ⟨k, v⟩ := s
    by_cases hk : a = k
    · subst hk
      rw [kreplace_cons_eq, List.dlookup_cons_eq]
    · rw [kreplace_cons_ne hk, List.dlookup_cons_ne _ _ hk]
      apply ih
      simpa [List.keys, hk] using h

/-- Reading a key of a map after the pointee of `a` has been overwritten. -/
theorem lookup_replace_ne {a a' : α} (h : a' ≠ a) (b : β) (s : AList (fun _ : α => β)) :
    (s.replace a b).lookup a' = s.lookup a' :=
  dlookup_kreplace_ne h b s.entries

theorem lookup_replace_self {a : α} (b : β) (s : AList (fun _ : α => β)) (h : a ∈ s) :
    (s.replace a b).lookup a = some b :=
  dlookup_kreplace_self b s.entries h

theorem lookup_replace_of_lookup {a : α} {b0 : β} (b : β) (s : AList (fun _ : α => β))
    (h : s.lookup a = some b0) : (s.replace a b).lookup a = some b :=
  lookup_replace_self b s (AList.lookup_isSome.1 (by rw [h]; rfl))

theorem replace_eq_self {a : α} {b : β} (s : AList (fun _ : α => β))
    (h : s.lookup a = some b) : s.replace a b = s :=
  AList.ext (List.kreplace_self s.nodupKeys (AList.mem_lookup_iff.1 h))

end MapLemmas
/-! ## The routing-lookup loop -/

theorem dhtStore_Topic (h : PeerID) (now : Time) (service : ServiceInfo) (p : AddrInfo) :
    (dhtStore h now service p).Topic = service.Topic := by
  unfold dhtStore
  split <;> rfl

theorem dhtStore_lookup (h : PeerID) (now : Time) (service : ServiceInfo) (p : AddrInfo)
    (id : PeerID) :
    (dhtStore h now service p).Peers.lookup id =
      if p.ID = id ∧ id ≠ h then some { LastSeen := now, Addrs := convertAddrs p.Addrs }
      else service.Peers.lookup id := by
  unfold dhtStore
  by_cases hp : p.ID = h
  · have hc : ¬ (p.ID = id ∧ id ≠ h) := fun hc => hc.2 (hc.1 ▸ hp)
    rw [if_neg hc]
    simp [hp]
  · by_cases hid : p.ID = id
    · subst hid
      simp [hp]
    · have hne : id ≠ p.ID := fun hc => hid hc.symm
      simp [hp, hid, AList.lookup_insert_ne hne]

/-- What a whole lookup result leaves in a directory: the node's own identity
is skipped, every other identity of the result gets the record of its last
occurrence, the rest is untouched. -/
theorem foldl_dhtStore_lookup (h : PeerID) (now : Time) (service : ServiceInfo)
    (peers : List AddrInfo) (id : PeerID) :
    (peers.foldl (dhtStore h now) service).Peers.lookup id =
      if id = h then service.Peers.lookup id
      else
        match peers.reverse.find? (fun p => decide (p.ID = id)) with
        | some p => some { LastSeen := now, Addrs := convertAddrs p.Addrs }
        | none => service.Peers.lookup id := by
  induction peers using List.reverseRecOn with
  | nil => simp
  | append_singleton l p ih =>
    rw [List.foldl_append, List.foldl_cons, List.foldl_nil, dhtStore_lookup, ih]
    by_cases hid : id = h
    · simp [hid]
    · by_cases hp : p.ID = id
      · simp [hid, hp]
      · simp [hid, hp]

theorem foldl_dhtStore_Topic (h : PeerID) (now : Time) (service : ServiceInfo)
    (peers : List AddrInfo) :
    (peers.foldl (dhtStore h now) service).Topic = service.Topic := by
  induction peers using List.reverseRecOn with
  | nil => rfl
  | append_singleton l p ih =>
    rw [List.foldl_append, List.foldl_cons, List.foldl_nil, dhtStore_Topic, ih]

theorem dhtDiscoveryLoop_registered {n : ServiceNode} {serviceTopic : String}
    {service : ServiceInfo} (hs : n.services.lookup serviceTopic = some service)
    (peers : List AddrInfo) (now : Time) :
    dhtDiscoveryLoop n serviceTopic (.ok peers) now =
      some { n with services :=
        n.services.replace serviceTopic (peers.foldl (dhtStore n.hostID now) service) } := by
  simp [dhtDiscoveryLoop, hs]

/-! ## The gossip loop -/

theorem pubsubDiscoveryLoop_accepted {n : ServiceNode} {serviceTopic : String}
    {service : ServiceInfo} (hs : n.services.lookup serviceTopic = some service)
    {msg : Message} {peerstore : Peerstore} {id : PeerID} {seenAt : Time}
    (hfrom : msg.ReceivedFrom ≠ n.hostID)
    (hdata : msg.Data = some { PeerID := some id, Timestamp := seenAt })
    (haddrs : peerstore id ≠ []) :
    pubsubDiscoveryLoop n serviceTopic (.ok msg) peerstore =
      some { n with services := (n.services.replace serviceTopic
        (ServiceInfo.mk service.Topic (service.Peers.insert id
          (PeerData.mk seenAt (convertAddrs (peerstore id)))))) } := by
  simp [pubsubDiscoveryLoop, hs, hfrom, hdata, haddrs]

/-! ## Records after a store -/

theorem record_replace_same (n : ServiceNode) (serviceTopic : String)
    {service : ServiceInfo} (hs : n.services.lookup serviceTopic = some service)
    (service' : ServiceInfo) (id : PeerID) :
    ServiceNode.record { n with services := n.services.replace serviceTopic service' }
      serviceTopic id = service'.Peers.lookup id := by
  simp [ServiceNode.record, lookup_replace_of_lookup service' n.services hs]

theorem record_replace_other (n : ServiceNode) (serviceTopic other : String)
    (h : other ≠ serviceTopic) (service' : ServiceInfo) (id : PeerID) :
    ServiceNode.record { n with services := n.services.replace serviceTopic service' }
      other id = n.record other id := by
  simp [ServiceNode.record, lookup_replace_ne h service' n.services]

/-- An observation that carries an update is handled without a crash on a
registered topic and leaves exactly that update as the stored record. -/
theorem observe_record {n : ServiceNode} {serviceTopic : String} {service : ServiceInfo}
    (hs : n.services.lookup serviceTopic = some service) {id : PeerID} {addrs : List String}
    {seenAt : Time} {o : Observation} (ho : o.Updates n.hostID id addrs seenAt) :
    ∃ n' service', observe n serviceTopic o = some n' ∧ n'.hostID = n.hostID ∧
      n'.services.lookup serviceTopic = some service' ∧
      n'.record serviceTopic id = some { LastSeen := seenAt, Addrs := addrs } := by
  cases o with
  | gossip msg peerstore =>
    obtain ⟨hfrom, hdata, haddrs, hconv⟩ := ho
    refine ⟨_, _, pubsubDiscoveryLoop_accepted hs hfrom hdata haddrs, rfl,
      lookup_replace_of_lookup _ _ hs, ?_⟩
    rw [record_replace_same n serviceTopic hs, AList.lookup_insert, hconv]
  | lookup peers now =>
    obtain ⟨hid, hnow, p, hp, hconv⟩ := ho
    refine ⟨_, _, dhtDiscoveryLoop_registered hs peers now, rfl,
      lookup_replace_of_lookup _ _ hs, ?_⟩
    rw [record_replace_same n serviceTopic hs, foldl_dhtStore_lookup, if_neg hid, hp, hnow]
    simp only [hconv]

/-! ## Self-exclusion -/

theorem RegisterService_hostID (n : ServiceNode) (serviceTopic : String)
    (join : Except String Unit) : (RegisterService n serviceTopic join).2.hostID = n.hostID := by
  unfold RegisterService
  cases join <;> cases hd : n.dht <;> cases hp : n.pubsub <;>
    cases hl : (n.services.lookup serviceTopic).isSome <;> simp [hd, hp]

/-- What `RegisterService` leaves in the services map: either the map it
found, or that map with an empty directory added for the topic. -/
theorem RegisterService_services (n : ServiceNode) (serviceTopic : String)
    (join : Except String Unit) :
    (RegisterService n serviceTopic join).2.services = n.services ∨
      (RegisterService n serviceTopic join).2.services =
        n.services.insert serviceTopic { Topic := serviceTopic, Peers := ∅ } := by
  unfold RegisterService
  cases join <;> cases hd : n.dht <;> cases hp : n.pubsub <;>
    cases hl : (n.services.lookup serviceTopic).isSome <;> simp [hd, hp]

/-- Registering a topic keeps the node out of its own directories. -/
theorem SelfExcluded_RegisterService {n : ServiceNode} (h : SelfExcluded n)
    (serviceTopic : String) (join : Except String Unit) :
    SelfExcluded (RegisterService n serviceTopic join).2 := by
  intro t service ht
  rw [RegisterService_hostID]
  rcases RegisterService_services n serviceTopic join with hs | hs
  · rw [hs] at ht
    exact h t service ht
  · rw [hs] at ht
    by_cases htt : t = serviceTopic
    · subst htt
      rw [AList.lookup_insert] at ht
      cases ht
      exact AList.lookup_empty _
    · rw [AList.lookup_insert_ne htt] at ht
      exact h t service ht

/-- The routing-lookup path keeps the node out of its own directories: it
compares the identity it stores with `n.host.ID()`. -/
theorem SelfExcluded_dhtDiscoveryLoop {n n' : ServiceNode} (h : SelfExcluded n)
    {serviceTopic : String} {found : Except String (List AddrInfo)} {now : Time}
    (he : dhtDiscoveryLoop n serviceTopic found now = some n') : SelfExcluded n' := by
  cases found with
  | error err =>
    simp only [dhtDiscoveryLoop, Option.some.injEq] at he
    exact he ▸ h
  | ok peers =>
    cases hs : n.services.lookup serviceTopic with
    | none =>
      simp only [dhtDiscoveryLoop, hs] at he
      split at he
      · cases he
        exact h
      · cases he
    | some service =>
      rw [dhtDiscoveryLoop_registered hs] at he
      cases he
      intro t service' ht
      by_cases htt : t = serviceTopic
      · subst htt
        simp only [lookup_replace_of_lookup _ _ hs, Option.some.injEq] at ht
        subst ht
        rw [foldl_dhtStore_lookup, if_pos rfl]
        exact h t service hs
      · simp only [lookup_replace_ne htt] at ht
        exact h t service' ht

/-! ## Queries -/

theorem foldl_findPeersBody (n : ServiceNode) (now : Time) (peerstore : Peerstore)
    (l : List (Sigma (fun _ : PeerID => PeerData))) (acc : List PeerInfo) :
    l.foldl (findPeersBody n now peerstore) acc =
      acc ++ l.filterMap (liveEntry n now peerstore) := by
  induction l generalizing acc with
  | nil => simp
  | cons e l ih =>
    rw [List.foldl_cons, ih]
    unfold findPeersBody liveEntry
    by_cases h : Time.Sub now e.2.LastSeen < n.peerTTL
    · simp [h, List.filterMap_cons]
    · simp [h, List.filterMap_cons]

/-- The result entries for one identity: one entry built from the stored
record when it is live, none otherwise. -/
theorem filter_liveEntry (n : ServiceNode) (now : Time) (peerstore : Peerstore)
    (id : PeerID) (l : List (Sigma (fun _ : PeerID => PeerData))) (nd : l.NodupKeys) :
    (l.filterMap (liveEntry n now peerstore)).filter (fun e => decide (e.ID = id)) =
      match List.dlookup id l with
      | some d =>
        if Time.Sub now d.LastSeen < n.peerTTL then
          [{ ID := id, Addrs := (peerstore id).map Multiaddr.String, LastSeen := d.LastSeen }]
        else []
      | none => [] := by
  induction l with
  | nil => rfl
  | cons e l ih =>
    obtain ⟨k, v⟩ := e
    rw [List.nodupKeys_cons] at nd
    have ih' := ih nd.2
    by_cases hk : id = k
    · subst hk
      have hnone : List.dlookup id l = none := List.dlookup_eq_none.2 nd.1
      rw [hnone] at ih'
      rw [List.dlookup_cons_eq]
      by_cases hl : Time.Sub now v.LastSeen < n.peerTTL
      · simp [List.filterMap_cons, liveEntry, hl, List.filter_cons, ih']
      · simp [List.filterMap_cons, liveEntry, hl, ih']
    · rw [List.dlookup_cons_ne _ _ hk, ← ih']
      have hk' : ¬ k = id := fun h => hk h.symm
      by_cases hl : Time.Sub now v.LastSeen < n.peerTTL
      · simp [List.filterMap_cons, liveEntry, hl, List.filter_cons, hk']
      · simp [List.filterMap_cons, liveEntry, hl]

theorem FindPeers_registered {n : ServiceNode} {serviceTopic : String} {service : ServiceInfo}
    (hs : n.services.lookup serviceTopic = some service) (now : Time) (peerstore : Peerstore) :
    FindPeers n serviceTopic now peerstore =
      .ok (service.Peers.entries.filterMap (liveEntry n now peerstore)) := by
  simp [FindPeers, hs, foldl_findPeersBody]

theorem FindPeers_filter {n : ServiceNode} {serviceTopic : String} {service : ServiceInfo}
    (hs : n.services.lookup serviceTopic = some service) (now : Time) (peerstore : Peerstore) :
    ∃ peers, FindPeers n serviceTopic now peerstore = .ok peers ∧
      ∀ id, peers.filter (fun e => decide (e.ID = id)) =
        match service.Peers.lookup id with
        | some d =>
          if Time.Sub now d.LastSeen < n.peerTTL then
            [{ ID := id, Addrs := (peerstore id).map Multiaddr.String, LastSeen := d.LastSeen }]
          else []
        | none => [] :=
  ⟨_, FindPeers_registered hs now peerstore, fun id =>
    filter_liveEntry n now peerstore id service.Peers.entries service.Peers.nodupKeys⟩

theorem Sub_lt_iff (t u : Int) (ttl : Int) (h : -(2 ^ 63) < ttl) (h' : ttl ≤ 2 ^ 63 - 1) :
    Time.Sub t u < ttl ↔ t - u < ttl := by
  show (if t - u < -(2 ^ 63 : Int) then -(2 ^ 63 : Int)
      else if (2 ^ 63 - 1 : Int) < t - u then (2 ^ 63 - 1 : Int) else t - u) < ttl ↔ _
  split_ifs <;> constructor <;> intro _ <;> omega

theorem Sub_of_range (t u : Int) (h1 : -(2 ^ 63) ≤ t - u) (h2 : t - u ≤ 2 ^ 63 - 1) :
    Time.Sub t u = t - u := by
  show (if t - u < -(2 ^ 63 : Int) then -(2 ^ 63 : Int)
      else if (2 ^ 63 - 1 : Int) < t - u then (2 ^ 63 - 1 : Int) else t - u) = _
  split_ifs <;> omega

theorem Sub_two_hours (now : Int) : Time.Sub now (now - 2 * Hour) = 2 * Hour := by
  have e : (now - (now - 2 * Hour) : Int) = 2 * Hour := by
    show (now - (now - 2 * (3600 * 1000000000 : Int)) : Int) = 2 * (3600 * 1000000000 : Int)
    omega
  rw [Sub_of_range, e]
  · rw [e]; decide
  · rw [e]; decide

/-! ## Registration -/

theorem RegisterService_registered {n : ServiceNode} {serviceTopic : String}
    (h : (n.services.lookup serviceTopic).isSome = true) (join : Except String Unit) :
    RegisterService n serviceTopic join =
      (some ("service " ++ serviceTopic ++ " already registered"), n) := by
  simp [RegisterService, h]

theorem RegisterService_fresh_ok {n : ServiceNode} {serviceTopic : String}
    (h : n.services.lookup serviceTopic = none) :
    (RegisterService n serviceTopic (.ok ())).1 = none ∧
      (RegisterService n serviceTopic (.ok ())).2.services =
        n.services.insert serviceTopic { Topic := serviceTopic, Peers := ∅ } := by
  unfold RegisterService
  cases hd : n.dht <;> cases hp : n.pubsub <;> simp [h, hd, hp]

/-- A failed gossip join on a node with both sources enabled: the error is
returned, the topic is not registered, and the routing-lookup loop started
before the join is still among the started loops. -/
theorem RegisterService_join_failed {n : ServiceNode} {serviceTopic : String}
    (hd : n.dht = true) (hp : n.pubsub = true) (h : n.services.lookup serviceTopic = none)
    (err : String) :
    RegisterService n serviceTopic (.error err) =
      (some ("failed to join topic: " ++ err),
        { n with goroutines := n.goroutines ++ [Goroutine.dhtDiscoveryLoop serviceTopic] }) := by
  simp [RegisterService, h, hd, hp]

theorem mem_FindPeers_Addrs {n : ServiceNode} {now : Time} {peerstore : Peerstore}
    {l : List (Sigma (fun _ : PeerID => PeerData))} {e : PeerInfo}
    (he : e ∈ l.filterMap (liveEntry n now peerstore)) :
    e.Addrs = (peerstore e.ID).map Multiaddr.String := by
  obtain ⟨x, _, hx⟩ := List.mem_filterMap.1 he
  unfold liveEntry at hx
  split at hx
  · cases hx
    rfl
  · cases hx

theorem Sub_self (now : Int) : Time.Sub now now = 0 := by
  rw [Sub_of_range] <;> simp

/-- After a successful tick on a registered topic, the record of an identity
that is not the node itself and whose last occurrence in the result is `p`. -/
theorem dhtDiscoveryLoop_record_last {n : ServiceNode} {serviceTopic : String}
    {service : ServiceInfo} (hs : n.services.lookup serviceTopic = some service)
    (now : Time) {id : PeerID} (hid : id ≠ n.hostID) (pre post : List AddrInfo) (p : AddrInfo)
    (hp : p.ID = id) (hpost : ∀ q ∈ post, q.ID ≠ id) :
    ServiceNode.record
      { n with services := (n.services.replace serviceTopic
          ((pre ++ p :: post).foldl (dhtStore n.hostID now) service)) }
      serviceTopic id = some { LastSeen := now, Addrs := p.Addrs.map Multiaddr.String } := by
  have hnone : post.reverse.find? (fun q => decide (q.ID = id)) = none := by
    rw [List.find?_eq_none]
    intro q hq
    simpa using hpost q (List.mem_reverse.1 hq)
  rw [record_replace_same n serviceTopic hs, List.foldl_append, List.foldl_cons,
    foldl_dhtStore_lookup, if_neg hid, hnone]
  simp only
  rw [dhtStore_lookup, if_pos ⟨hp, hid⟩]
  rfl

/-- Every element of a list is followed by a last element with the same key. -/
theorem exists_last_occurrence (peers : List AddrInfo) (id : PeerID)
    (h : ∃ q ∈ peers, q.ID = id) :
    ∃ pre p post, peers = pre ++ p :: post ∧ p.ID = id ∧ ∀ q ∈ post, q.ID ≠ id := by
  induction peers with
  | nil =>
    obtain ⟨q, hq, _⟩ := h
    cases hq
  | cons a l ih =>
    by_cases hl : ∃ q ∈ l, q.ID = id
    · obtain ⟨pre, p, post, e, hp, hpost⟩ := ih hl
      exact ⟨a :: pre, p, post, by rw [e]; rfl, hp, hpost⟩
    · obtain ⟨q, hq, hqid⟩ := h
      rcases List.mem_cons.1 hq with rfl | hq'
      · exact ⟨[], q, l, rfl, hqid, fun r hr hrid => hl ⟨r, hr, hrid⟩⟩
      · exact absurd ⟨q, hq', hqid⟩ hl

/-- A record that passes the time-to-live test shows up in `FindPeers`. -/
theorem FindPeers_visible {n : ServiceNode} {serviceTopic : String} {service : ServiceInfo}
    (hs : n.services.lookup serviceTopic = some service) {id : PeerID} {d : PeerData}
    (hd : service.Peers.lookup id = some d) (readAt : Time) (peerstore : Peerstore)
    (hl : Time.Sub readAt d.LastSeen < n.peerTTL) :
    ∃ found, FindPeers n serviceTopic readAt peerstore = .ok found ∧
      ∃ e ∈ found, e.ID = id ∧ e.LastSeen = d.LastSeen := by
  obtain ⟨found, hf, hfil⟩ := FindPeers_filter hs readAt peerstore
  have h := hfil id
  rw [hd] at h
  simp only [hl, if_true] at h
  have hmem : PeerInfo.mk id ((peerstore id).map Multiaddr.String) d.LastSeen ∈
      found.filter (fun e => decide (e.ID = id)) := by
    rw [h]
    exact List.mem_singleton.2 rfl
  exact ⟨found, hf, _, (List.mem_filter.1 hmem).1, rfl, rfl⟩

/-- The effect of a successful routing-lookup tick on a registered topic. -/
theorem dhtDiscoveryLoop_effect {n : ServiceNode} {serviceTopic : String}
    {service : ServiceInfo} (hs : n.services.lookup serviceTopic = some service)
    (peers : List AddrInfo) (now : Time) :
    ∃ n', dhtDiscoveryLoop n serviceTopic (.ok peers) now = some n' ∧
      n'.hostID = n.hostID ∧ n'.peerTTL = n.peerTTL ∧ n'.goroutines = n.goroutines ∧
      (∀ id pre p post, id ≠ n.hostID → peers = pre ++ p :: post → p.ID = id →
        (∀ q ∈ post, q.ID ≠ id) →
        n'.record serviceTopic id =
          some { LastSeen := now, Addrs := p.Addrs.map Multiaddr.String }) ∧
      (∀ id, (∀ q ∈ peers, q.ID ≠ id) → n'.record serviceTopic id = n.record serviceTopic id) ∧
      (∀ other, other ≠ serviceTopic → n'.services.lookup other = n.services.lookup other) := by
  refine ⟨_, dhtDiscoveryLoop_registered hs peers now, rfl, rfl, rfl, ?_, ?_, ?_⟩
  · intro id pre p post hid he hp hpost
    subst he
    exact dhtDiscoveryLoop_record_last hs now hid pre post p hp hpost
  · intro id hq
    have hnone : peers.reverse.find? (fun q => decide (q.ID = id)) = none := by
      rw [List.find?_eq_none]
      intro q hq'
      simpa using hq q (List.mem_reverse.1 hq')
    rw [record_replace_same n serviceTopic hs, foldl_dhtStore_lookup, hnone]
    simp [ServiceNode.record, hs]
  · intro other ho
    exact lookup_replace_ne ho _ _

theorem RegisterService_fresh_joined {n : ServiceNode} {serviceTopic : String}
    (h : n.services.lookup serviceTopic = none) {join : Except String Unit}
    (hj : n.pubsub = false ∨ join = .ok ()) :
    RegisterService n serviceTopic join =
      (none, (RegisterService n serviceTopic join).2) ∧
      (RegisterService n serviceTopic join).2.services =
        n.services.insert serviceTopic { Topic := serviceTopic, Peers := ∅ } := by
  unfold RegisterService
  rcases hj with hp | hj
  · cases hd : n.dht <;> simp [h, hd, hp]
  · subst hj
    cases hd : n.dht <;> cases hp : n.pubsub <;> simp [h, hd, hp]

theorem RegisterService_fresh_failed {n : ServiceNode} {serviceTopic : String}
    (h : n.services.lookup serviceTopic = none) (hp : n.pubsub = true) (err : String) :
    RegisterService n serviceTopic (.error err) =
      (some ("failed to join topic: " ++ err), (RegisterService n serviceTopic (.error err)).2) ∧
      (RegisterService n serviceTopic (.error err)).2.services = n.services := by
  unfold RegisterService
  cases hd : n.dht <;> simp [h, hd, hp]

/-! ## Repeated and monotone stores -/

theorem isSome_lookup_replace {α : Type} {β : Type} [DecidableEq α] (a a' : α) (b : β)
    (s : AList (fun _ : α => β)) :
    ((s.replace a b).lookup a').isSome = (s.lookup a').isSome := by
  have h : ((s.replace a b).lookup a').isSome = true ↔ (s.lookup a').isSome = true := by
    rw [AList.lookup_isSome, AList.lookup_isSome, AList.mem_replace]
  cases h1 : ((s.replace a b).lookup a').isSome <;> cases h2 : (s.lookup a').isSome <;>
    simp_all

/-- Handling the same observation twice on a registered topic: the second
handling changes no record and no set of registered topics. -/
theorem observe_twice {n : ServiceNode} {serviceTopic : String} {service : ServiceInfo}
    (hs : n.services.lookup serviceTopic = some service) {id : PeerID} {addrs : List String}
    {seenAt : Time} {o : Observation} (ho : o.Updates n.hostID id addrs seenAt) :
    ∃ n1 n2, observe n serviceTopic o = some n1 ∧ observe n1 serviceTopic o = some n2 ∧
      (∀ t id', n2.record t id' = n1.record t id') ∧
      (∀ t, (n2.services.lookup t).isSome = (n1.services.lookup t).isSome) := by
  cases o with
  | gossip msg peerstore =>
    obtain ⟨hfrom, hdata, haddrs, _⟩ := ho
    have hs1 := lookup_replace_of_lookup
      (ServiceInfo.mk service.Topic (service.Peers.insert id
        (PeerData.mk seenAt (convertAddrs (peerstore id))))) n.services hs
    refine ⟨_, _, pubsubDiscoveryLoop_accepted hs hfrom hdata haddrs,
      pubsubDiscoveryLoop_accepted (n := _) hs1 hfrom hdata haddrs, ?_, ?_⟩
    · intro t id'
      by_cases ht : t = serviceTopic
      · subst ht
        rw [record_replace_same _ t hs1, record_replace_same n t hs]
        simp only [AList.insert_insert]
      · rw [record_replace_other _ serviceTopic t ht]
    · intro t
      exact isSome_lookup_replace _ _ _ _
  | lookup peers now =>
    have hs1 := lookup_replace_of_lookup
      (peers.foldl (dhtStore n.hostID now) service) n.services hs
    refine ⟨_, _, dhtDiscoveryLoop_registered hs peers now,
      dhtDiscoveryLoop_registered (n := _) hs1 peers now, ?_, ?_⟩
    · intro t id'
      by_cases ht : t = serviceTopic
      · subst ht
        rw [record_replace_same _ t hs1, record_replace_same n t hs]
        show (peers.foldl (dhtStore n.hostID now) _).Peers.lookup id' = _
        rw [foldl_dhtStore_lookup n.hostID now (peers.foldl (dhtStore n.hostID now) service),
          foldl_dhtStore_lookup n.hostID now service]
        by_cases hid : id' = n.hostID
        · simp [hid]
        · cases hf : peers.reverse.find? (fun p => decide (p.ID = id')) <;> simp [hid]
      · rw [record_replace_other _ serviceTopic t ht]
    · intro t
      exact isSome_lookup_replace _ _ _ _

/-! ## No eviction -/

theorem NoEviction_refl (n : ServiceNode) : NoEviction n n :=
  ⟨fun _ h => h, fun _ _ h => h⟩

/-- Overwriting the pointee of a registered topic by a `ServiceInfo` that
keeps every identity evicts nothing. -/
theorem NoEviction_replace {n : ServiceNode} {serviceTopic : String} {service : ServiceInfo}
    (hs : n.services.lookup serviceTopic = some service) (service' : ServiceInfo)
    (hk : ∀ id, (service.Peers.lookup id).isSome = true →
      (service'.Peers.lookup id).isSome = true) :
    NoEviction n { n with services := n.services.replace serviceTopic service' } := by
  constructor
  · intro t ht
    show ((n.services.replace serviceTopic service').lookup t).isSome = true
    rw [isSome_lookup_replace]
    exact ht
  · intro t id ht
    by_cases htt : t = serviceTopic
    · subst htt
      rw [record_replace_same n t hs]
      apply hk
      simpa [ServiceNode.record, hs] using ht
    · rw [record_replace_other n serviceTopic t htt]
      exact ht

/-- What `RegisterService` leaves in the services map, with the condition
under which it adds a directory. -/
theorem RegisterService_services_fresh (n : ServiceNode) (serviceTopic : String)
    (join : Except String Unit) :
    (RegisterService n serviceTopic join).2.services = n.services ∨
      (n.services.lookup serviceTopic = none ∧
        (RegisterService n serviceTopic join).2.services =
          n.services.insert serviceTopic { Topic := serviceTopic, Peers := ∅ }) := by
  unfold RegisterService
  cases hl : n.services.lookup serviceTopic <;> cases join <;> cases hd : n.dht <;>
    cases hp : n.pubsub <;> simp [hd, hp]

theorem NoEviction_RegisterService (n : ServiceNode) (serviceTopic : String)
    (join : Except String Unit) : NoEviction n (RegisterService n serviceTopic join).2 := by
  rcases RegisterService_services_fresh n serviceTopic join with h | ⟨hnone, h⟩
  · constructor
    · intro t ht
      rw [h]
      exact ht
    · intro t id ht
      simp only [ServiceNode.record, h]
      exact ht
  · have hne : ∀ t, (n.services.lookup t).isSome = true → t ≠ serviceTopic := by
      intro t ht htt
      rw [htt, hnone] at ht
      cases ht
    constructor
    · intro t ht
      rw [h, AList.lookup_insert_ne (hne t ht)]
      exact ht
    · intro t id ht
      have hreg : (n.services.lookup t).isSome = true := by
        cases hl : n.services.lookup t with
        | none => simp [ServiceNode.record, hl] at ht
        | some _ => rfl
      simp only [ServiceNode.record, h, AList.lookup_insert_ne (hne t hreg)]
      exact ht

/-- The possible outcomes of one iteration of the gossip loop: a panic, the
node as it was, or one record stored in the directory of the topic. -/
theorem pubsubDiscoveryLoop_cases (n : ServiceNode) (serviceTopic : String)
    (next : Except String Message) (peerstore : Peerstore) :
    (pubsubDiscoveryLoop n serviceTopic next peerstore = none ∧
      n.services.lookup serviceTopic = none) ∨
    pubsubDiscoveryLoop n serviceTopic next peerstore = some n ∨
    ∃ service id data, n.services.lookup serviceTopic = some service ∧
      pubsubDiscoveryLoop n serviceTopic next peerstore =
        some { n with services := (n.services.replace serviceTopic
          (ServiceInfo.mk service.Topic (service.Peers.insert id data))) } := by
  cases next with
  | error err => exact Or.inr (Or.inl rfl)
  | ok msg =>
    by_cases hfrom : msg.ReceivedFrom = n.hostID
    · exact Or.inr (Or.inl (by simp [pubsubDiscoveryLoop, hfrom]))
    · cases hd : msg.Data with
      | none => exact Or.inr (Or.inl (by simp [pubsubDiscoveryLoop, hd]))
      | some ann =>
        obtain ⟨pid, seenAt⟩ := ann
        cases pid with
        | none => exact Or.inr (Or.inl (by simp [pubsubDiscoveryLoop, hd]))
        | some id =>
          by_cases haddrs : peerstore id = []
          · exact Or.inr (Or.inl (by simp [pubsubDiscoveryLoop, hd, haddrs]))
          · cases hs : n.services.lookup serviceTopic with
            | none => exact Or.inl ⟨by simp [pubsubDiscoveryLoop, hfrom, hd, haddrs, hs], rfl⟩
            | some service =>
              exact Or.inr (Or.inr ⟨service, id, _, rfl,
                pubsubDiscoveryLoop_accepted hs hfrom hd haddrs⟩)

theorem NoEviction_pubsubDiscoveryLoop {n n' : ServiceNode} {serviceTopic : String}
    {next : Except String Message} {peerstore : Peerstore}
    (he : pubsubDiscoveryLoop n serviceTopic next peerstore = some n') : NoEviction n n' := by
  rcases pubsubDiscoveryLoop_cases n serviceTopic next peerstore with
    ⟨h, _⟩ | h | ⟨service, id, data, hs, h⟩
  · rw [h] at he
    cases he
  · rw [h] at he
    cases he
    exact NoEviction_refl n
  · rw [h] at he
    cases he
    apply NoEviction_replace hs
    intro id' hid'
    by_cases hne : id' = id
    · subst hne
      rw [AList.lookup_insert]
      rfl
    · rw [AList.lookup_insert_ne hne]
      exact hid'

theorem NoEviction_dhtDiscoveryLoop {n n' : ServiceNode} {serviceTopic : String}
    {found : Except String (List AddrInfo)} {now : Time}
    (he : dhtDiscoveryLoop n serviceTopic found now = some n') : NoEviction n n' := by
  cases found with
  | error err =>
    simp only [dhtDiscoveryLoop, Option.some.injEq] at he
    exact he ▸ NoEviction_refl n
  | ok peers =>
    cases hs : n.services.lookup serviceTopic with
    | none =>
      simp only [dhtDiscoveryLoop, hs] at he
      split at he
      · cases he
        exact NoEviction_refl n
      · cases he
    | some service =>
      rw [dhtDiscoveryLoop_registered hs] at he
      cases he
      apply NoEviction_replace hs
      intro id hid
      rw [foldl_dhtStore_lookup]
      by_cases hself : id = n.hostID
      · rw [if_pos hself]
        exact hid
      · rw [if_neg hself]
        cases hf : peers.reverse.find? (fun p => decide (p.ID = id)) with
        | none => exact hid
        | some p => rfl

/-! ## The directory the loops write into -/

theorem dhtDiscoveryLoop_goroutines {n n' : ServiceNode} {serviceTopic : String}
    {found : Except String (List AddrInfo)} {now : Time}
    (he : dhtDiscoveryLoop n serviceTopic found now = some n') :
    n'.goroutines = n.goroutines := by
  cases found with
  | error err =>
    simp only [dhtDiscoveryLoop, Option.some.injEq] at he
    rw [← he]
  | ok peers =>
    cases hs : n.services.lookup serviceTopic with
    | none =>
      simp only [dhtDiscoveryLoop, hs] at he
      split at he
      · cases he
        rfl
      · cases he
    | some service =>
      rw [dhtDiscoveryLoop_registered hs] at he
      cases he
      rfl

theorem pubsubDiscoveryLoop_goroutines {n n' : ServiceNode} {serviceTopic : String}
    {next : Except String Message} {peerstore : Peerstore}
    (he : pubsubDiscoveryLoop n serviceTopic next peerstore = some n') :
    n'.goroutines = n.goroutines := by
  rcases pubsubDiscoveryLoop_cases n serviceTopic next peerstore with
    ⟨h, _⟩ | h | ⟨_, _, _, _, h⟩ <;> rw [h] at he <;> cases he <;> rfl

/-- A gossip loop that `RegisterService` starts belongs to the topic being
registered, and the call then stores the topic's `ServiceInfo`. -/
theorem RegisterService_pubsub_loop (n : ServiceNode) (serviceTopic : String)
    (join : Except String Unit) (t : String)
    (h : Goroutine.pubsubDiscoveryLoop t ∈ (RegisterService n serviceTopic join).2.goroutines) :
    Goroutine.pubsubDiscoveryLoop t ∈ n.goroutines ∨
      ((RegisterService n serviceTopic join).2.services.lookup t).isSome = true := by
  unfold RegisterService at h ⊢
  cases hl : (n.services.lookup serviceTopic).isSome <;> cases join <;> cases hd : n.dht <;>
    cases hp : n.pubsub <;> simp [hl, hd, hp] at h ⊢ <;> first
      | exact Or.inl h
      | (rcases h with h | h
         · exact Or.inl h
         · right; subst h; simp)

/-- The gossip loop is safe: in every state reached from a node whose started
gossip loops all belong to registered topics, every started gossip loop
belongs to a registered topic. -/
theorem pubsub_loop_registered {n0 n : ServiceNode}
    (h0 : ∀ t, Goroutine.pubsubDiscoveryLoop t ∈ n0.goroutines →
      (n0.services.lookup t).isSome = true)
    (hr : Reachable n0 n) :
    ∀ t, Goroutine.pubsubDiscoveryLoop t ∈ n.goroutines →
      (n.services.lookup t).isSome = true := by
  induction hr with
  | init => exact h0
  | register serviceTopic join _ ih =>
    intro t ht
    rcases RegisterService_pubsub_loop _ serviceTopic join t ht with h | h
    · exact (NoEviction_RegisterService _ serviceTopic join).1 t (ih t h)
    · exact h
  | tick serviceTopic found now _ _ he ih =>
    intro t ht
    rw [dhtDiscoveryLoop_goroutines he] at ht
    exact (NoEviction_dhtDiscoveryLoop he).1 t (ih t ht)
  | gossip serviceTopic next peerstore _ _ he ih =>
    intro t ht
    rw [pubsubDiscoveryLoop_goroutines he] at ht
    exact (NoEviction_pubsubDiscoveryLoop he).1 t (ih t ht)

/-- A freshly created node has started gossip loops only for registered
topics. -/
theorem NewServiceNode_pubsub_loop {h : PeerID} {cfg : Config}
    {dhtNew pubsubNew join : Except String Unit} {n0 : ServiceNode}
    (he : NewServiceNode h cfg dhtNew pubsubNew join = .ok n0) :
    ∀ t, Goroutine.pubsubDiscoveryLoop t ∈ n0.goroutines →
      (n0.services.lookup t).isSome = true := by
  intro t ht
  unfold NewServiceNode initProtocols at he
  obtain ⟨eDHT, ePub, ePex, ttl⟩ := cfg
  cases eDHT <;> cases ePub <;> cases ePex <;> cases dhtNew <;> cases pubsubNew <;>
    simp at he <;>
    first
    | (subst he; simp at ht)
    | (split at he
       · cases he
       · cases he
         rename_i heq
         have hn := congrArg Prod.snd heq
         simp only at hn
         subst hn
         rcases RegisterService_pubsub_loop _ _ _ t ht with h' | h'
         · simp at h'
         · exact h')

/-! ## Running loops -/

theorem RegisterService_ctxDone (n : ServiceNode) (serviceTopic : String)
    (join : Except String Unit) :
    (RegisterService n serviceTopic join).2.ctxDone = n.ctxDone := by
  unfold RegisterService
  cases join <;> cases hd : n.dht <;> cases hp : n.pubsub <;>
    cases hl : (n.services.lookup serviceTopic).isSome <;> simp [hd, hp]

/-- The loops `RegisterService` starts are appended to the started loops and
belong to the topic of the call. -/
theorem RegisterService_started (n : ServiceNode) (serviceTopic : String)
    (join : Except String Unit) :
    ∃ started, (RegisterService n serviceTopic join).2.goroutines = n.goroutines ++ started ∧
      ∀ g ∈ started, g.serviceTopic = serviceTopic := by
  unfold RegisterService
  cases hl : (n.services.lookup serviceTopic).isSome <;> cases join <;> cases hd : n.dht <;>
    cases hp : n.pubsub <;> simp only [hd, hp, if_true, if_false, Bool.false_eq_true] <;>
    first
    | (refine ⟨[], ?_, ?_⟩
       · simp
       · simp)
    | (refine ⟨[Goroutine.dhtDiscoveryLoop serviceTopic], ?_, ?_⟩
       · simp
       · simp [Goroutine.serviceTopic])
    | (refine ⟨[Goroutine.announceLoop serviceTopic,
         Goroutine.pubsubDiscoveryLoop serviceTopic], ?_, ?_⟩
       · simp
       · simp [Goroutine.serviceTopic])
    | (refine ⟨[Goroutine.dhtDiscoveryLoop serviceTopic, Goroutine.announceLoop serviceTopic,
         Goroutine.pubsubDiscoveryLoop serviceTopic], ?_, ?_⟩
       · simp
       · simp [Goroutine.serviceTopic])

theorem RegisterService_goroutines (n : ServiceNode) (serviceTopic : String)
    (join : Except String Unit) (g : Goroutine)
    (h : g ∈ (RegisterService n serviceTopic join).2.goroutines) :
    g ∈ n.goroutines ∨ g.serviceTopic = serviceTopic := by
  obtain ⟨started, he, ht⟩ := RegisterService_started n serviceTopic join
  rw [he] at h
  rcases List.mem_append.1 h with h | h
  · exact Or.inl h
  · exact Or.inr (ht g h)

theorem dhtDiscoveryLoop_ctxDone {n n' : ServiceNode} {serviceTopic : String}
    {found : Except String (List AddrInfo)} {now : Time}
    (he : dhtDiscoveryLoop n serviceTopic found now = some n') :
    n'.ctxDone = n.ctxDone := by
  cases found with
  | error err =>
    simp only [dhtDiscoveryLoop, Option.some.injEq] at he
    rw [← he]
  | ok peers =>
    cases hs : n.services.lookup serviceTopic with
    | none =>
      simp only [dhtDiscoveryLoop, hs] at he
      split at he
      · cases he
        rfl
      · cases he
    | some service =>
      rw [dhtDiscoveryLoop_registered hs] at he
      cases he
      rfl

theorem pubsubDiscoveryLoop_ctxDone {n n' : ServiceNode} {serviceTopic : String}
    {next : Except String Message} {peerstore : Peerstore}
    (he : pubsubDiscoveryLoop n serviceTopic next peerstore = some n') :
    n'.ctxDone = n.ctxDone := by
  rcases pubsubDiscoveryLoop_cases n serviceTopic next peerstore with
    ⟨h, _⟩ | h | ⟨_, _, _, _, h⟩ <;> rw [h] at he <;> cases he <;> rfl

theorem Close_ctxDone (n : ServiceNode) (dhtClose hostClose : Except String Unit) :
    (Close n dhtClose hostClose).2.ctxDone = true := by
  unfold Close
  cases dhtClose <;> cases hostClose <;> cases hd : n.dht <;> simp

/-- A completed registration stores the topic. -/
theorem RegisterService_stores {n : ServiceNode} {serviceTopic : String}
    {join : Except String Unit} (hc : n.ctxDone = false)
    (hj : joinPossible n join = true) :
    ((RegisterService n serviceTopic join).2.services.lookup serviceTopic).isSome = true := by
  cases hl : n.services.lookup serviceTopic with
  | some service =>
    rw [RegisterService_registered (by rw [hl]; rfl), hl]
    rfl
  | none =>
    have hok : n.pubsub = false ∨ join = .ok () := by
      cases join with
      | ok u => exact Or.inr rfl
      | error err =>
        simp only [joinPossible] at hj
        rw [hc] at hj
        cases hj
    rw [(RegisterService_fresh_joined hl hok).2, AList.lookup_insert]
    rfl

theorem LoopsRegistered_RegisterService {n : ServiceNode} (h : LoopsRegistered n)
    (serviceTopic : String) {join : Except String Unit} (hj : joinPossible n join = true) :
    LoopsRegistered (RegisterService n serviceTopic join).2 := by
  intro hc g hg
  rw [RegisterService_ctxDone] at hc
  rcases RegisterService_goroutines n serviceTopic join g hg with hg' | ht
  · exact (NoEviction_RegisterService n serviceTopic join).1 _ (h hc g hg')
  · rw [ht]
    exact RegisterService_stores hc hj

theorem LoopsRegistered_dhtDiscoveryLoop {n n' : ServiceNode} (h : LoopsRegistered n)
    {serviceTopic : String} {found : Except String (List AddrInfo)} {now : Time}
    (he : dhtDiscoveryLoop n serviceTopic found now = some n') : LoopsRegistered n' := by
  intro hc g hg
  rw [dhtDiscoveryLoop_ctxDone he] at hc
  rw [dhtDiscoveryLoop_goroutines he] at hg
  exact (NoEviction_dhtDiscoveryLoop he).1 _ (h hc g hg)

theorem LoopsRegistered_pubsubDiscoveryLoop {n n' : ServiceNode} (h : LoopsRegistered n)
    {serviceTopic : String} {next : Except String Message} {peerstore : Peerstore}
    (he : pubsubDiscoveryLoop n serviceTopic next peerstore = some n') :
    LoopsRegistered n' := by
  intro hc g hg
  rw [pubsubDiscoveryLoop_ctxDone he] at hc
  rw [pubsubDiscoveryLoop_goroutines he] at hg
  exact (NoEviction_pubsubDiscoveryLoop he).1 _ (h hc g hg)

/-- Along every run the started loops belong to registered topics while the
context is live. -/
theorem LoopsRegistered_Runs {n0 n : ServiceNode} (h0 : LoopsRegistered n0)
    (hr : Runs n0 n) : LoopsRegistered n := by
  induction hr with
  | init => exact h0
  | register serviceTopic join _ hj ih => exact LoopsRegistered_RegisterService ih serviceTopic hj
  | tick serviceTopic found now _ _ he ih => exact LoopsRegistered_dhtDiscoveryLoop ih he
  | gossip serviceTopic next peerstore _ _ he ih =>
    exact LoopsRegistered_pubsubDiscoveryLoop ih he
  | close dhtClose hostClose _ _ =>
    intro hc
    rw [Close_ctxDone] at hc
    cases hc

/-- A registration that returns no error has stored the topic. -/
theorem RegisterService_ok_registered {n : ServiceNode} {serviceTopic : String}
    {join : Except String Unit} (h : (RegisterService n serviceTopic join).1 = none) :
    ((RegisterService n serviceTopic join).2.services.lookup serviceTopic).isSome = true := by
  cases hl : n.services.lookup serviceTopic with
  | some service =>
    rw [RegisterService_registered (by rw [hl]; rfl)] at h
    cases h
  | none =>
    have hok : n.pubsub = false ∨ join = .ok () := by
      cases hp : n.pubsub with
      | false => exact Or.inl rfl
      | true =>
        cases join with
        | ok u => exact Or.inr rfl
        | error err =>
          rw [(RegisterService_fresh_failed hl hp err).1] at h
          cases h
    rw [(RegisterService_fresh_joined hl hok).2, AList.lookup_insert]
    rfl

/-- A freshly created node has started loops only for registered topics. -/
theorem NewServiceNode_LoopsRegistered {h : PeerID} {cfg : Config}
    {dhtNew pubsubNew join : Except String Unit} {n0 : ServiceNode}
    (he : NewServiceNode h cfg dhtNew pubsubNew join = .ok n0) : LoopsRegistered n0 := by
  intro _ g hg
  unfold NewServiceNode initProtocols at he
  obtain ⟨eDHT, ePub, ePex, ttl⟩ := cfg
  cases eDHT <;> cases ePub <;> cases ePex <;> cases dhtNew <;> cases pubsubNew <;>
    simp at he <;>
    first
    | (subst he; simp at hg)
    | (split at he
       · cases he
       · cases he
         rename_i heq
         have hn := congrArg Prod.snd heq
         have he1 := congrArg Prod.fst heq
         simp only at hn he1
         subst hn
         rcases RegisterService_goroutines _ _ _ g hg with h' | h'
         · simp at h'
         · rw [h']
           exact RegisterService_ok_registered he1)

/-- A tick on a registered topic is handled without a panic. -/
theorem dhtDiscoveryLoop_completes {n : ServiceNode} {serviceTopic : String}
    (hreg : (n.services.lookup serviceTopic).isSome = true)
    (found : Except String (List AddrInfo)) (now : Time) :
    ∃ n', dhtDiscoveryLoop n serviceTopic found now = some n' := by
  cases found with
  | error err => exact ⟨n, rfl⟩
  | ok peers =>
    cases hs : n.services.lookup serviceTopic with
    | none =>
      rw [hs] at hreg
      cases hreg
    | some service => exact ⟨_, dhtDiscoveryLoop_registered hs peers now⟩

/-- A gossip message on a registered topic is handled without a panic. -/
theorem pubsubDiscoveryLoop_completes {n : ServiceNode} {serviceTopic : String}
    (hreg : (n.services.lookup serviceTopic).isSome = true)
    (next : Except String Message) (peerstore : Peerstore) :
    ∃ n', pubsubDiscoveryLoop n serviceTopic next peerstore = some n' := by
  rcases pubsubDiscoveryLoop_cases n serviceTopic next peerstore with
    ⟨_, hnone⟩ | h | ⟨_, _, _, _, h⟩
  · rw [hnone] at hreg
    cases hreg
  · exact ⟨_, h⟩
  · exact ⟨_, h⟩

/-! ## Claims -/

/-- C1 (fails on the gossip path). Starting from a freshly created node with
identity `1`, registering `"svc"` and handling one gossip message that peer
`2` forwards and whose payload announces peer `1`, while the address book has
an address for `1`, reaches a state whose `"svc"` directory has an entry keyed
by the node's own identity: the gossip loop compares `n.host.ID()` with the
forwarder only, never with the announced identity. -/
theorem gossip_inserts_self :
    ∃ n0 n, NewServiceNode 1 DefaultConfig (.ok ()) (.ok ()) (.ok ()) = .ok n0 ∧
      pubsubDiscoveryLoop (RegisterService n0 "svc" (.ok ())).2 "svc" (.ok echoedAnnouncement)
        bookOfOne = some n ∧
      Reachable n0 n ∧ n.hostID = 1 ∧
      n.record "svc" 1 = some { LastSeen := 100, Addrs := ["/ip4/10.0.0.1/tcp/4001"] } ∧
      ¬ SelfExcluded n := by
  refine ⟨_, _, rfl, rfl, ?_, rfl, by decide, ?_⟩
  · exact Reachable.gossip "svc" (.ok echoedAnnouncement) bookOfOne
      (Reachable.register "svc" (.ok ()) Reachable.init) (by decide) rfl
  · intro h
    have := h "svc" _ (by rfl)
    revert this
    decide

/-- C2 (as stated, false). On `demoNode`, the update `(7, a1, 10)` followed by
the update `(7, a2, 5)`, both through gossip announcements, has `5 < 10` and
yet leaves the record `{lastSeen = 5, addresses = a2}`, not
`{lastSeen = 10, addresses = a1}`. -/
theorem stale_update_overwrites :
    (Observation.gossip (announceSeven 10) (bookOfSeven "/ip4/10.0.0.7/tcp/1")).Updates
      demoNode.hostID 7 ["/ip4/10.0.0.7/tcp/1"] 10 ∧
    (Observation.gossip (announceSeven 5) (bookOfSeven "/ip4/10.0.0.7/tcp/2")).Updates
      demoNode.hostID 7 ["/ip4/10.0.0.7/tcp/2"] 5 ∧
    (5 : Time) < 10 ∧
    ((observe demoNode "svc"
        (Observation.gossip (announceSeven 10) (bookOfSeven "/ip4/10.0.0.7/tcp/1"))).bind
      (fun n1 => observe n1 "svc"
        (Observation.gossip (announceSeven 5) (bookOfSeven "/ip4/10.0.0.7/tcp/2")))).bind
      (fun n2 => n2.record "svc" 7) =
        some { LastSeen := 5, Addrs := ["/ip4/10.0.0.7/tcp/2"] } ∧
    ((observe demoNode "svc"
        (Observation.gossip (announceSeven 10) (bookOfSeven "/ip4/10.0.0.7/tcp/1"))).bind
      (fun n1 => observe n1 "svc"
        (Observation.gossip (announceSeven 5) (bookOfSeven "/ip4/10.0.0.7/tcp/2")))).bind
      (fun n2 => n2.record "svc" 7) ≠
        some { LastSeen := 10, Addrs := ["/ip4/10.0.0.7/tcp/1"] } := by
  refine ⟨⟨by decide, rfl, by decide, rfl⟩, ⟨by decide, rfl, by decide, rfl⟩,
    by decide, by decide, by decide⟩

/-- C2 (amended). Last writer wins: on a registered topic, for every identity
`id`, address lists `a1`, `a2` and times `t1`, `t2` in any order, applying
the update `(id, a1, t1)` and then the update `(id, a2, t2)`, each through a
gossip announcement or a routing-lookup tick, stores `{t1, a1}` and then
replaces it by `{lastSeen = t2, addresses = a2}`; the incoming `seenAt` is
never compared with the stored `lastSeen`. -/
theorem last_update_wins (n : ServiceNode) (serviceTopic : String) (service : ServiceInfo)
    (id : PeerID) (a1 a2 : List String) (t1 t2 : Time) (o1 o2 : Observation)
    (hs : n.services.lookup serviceTopic = some service)
    (h1 : o1.Updates n.hostID id a1 t1) (h2 : o2.Updates n.hostID id a2 t2) :
    ∃ n1 n2, observe n serviceTopic o1 = some n1 ∧
      n1.record serviceTopic id = some { LastSeen := t1, Addrs := a1 } ∧
      observe n1 serviceTopic o2 = some n2 ∧
      n2.record serviceTopic id = some { LastSeen := t2, Addrs := a2 } := by
  obtain ⟨n1, s1, e1, hh, hs1, r1⟩ := observe_record hs h1
  obtain ⟨n2, s2, e2, _, _, r2⟩ := observe_record hs1 (hh ▸ h2)
  exact ⟨n1, n2, e1, r1, e2, r2⟩

/-- Witness of `last_update_wins`: a gossip announcement of peer `7` at time
`10`, then a routing lookup completed at the earlier time `5`. -/
theorem last_update_wins_witness :
    demoNode.services.lookup "svc" = some { Topic := "svc", Peers := ∅ } ∧
    (Observation.gossip (announceSeven 10) (bookOfSeven "/ip4/10.0.0.7/tcp/1")).Updates
      demoNode.hostID 7 ["/ip4/10.0.0.7/tcp/1"] 10 ∧
    (Observation.lookup [{ ID := 7, Addrs := [{ str := "/ip4/10.0.0.7/tcp/2" }] }] 5).Updates
      demoNode.hostID 7 ["/ip4/10.0.0.7/tcp/2"] 5 ∧
    ∃ n1 n2,
      observe demoNode "svc"
        (Observation.gossip (announceSeven 10) (bookOfSeven "/ip4/10.0.0.7/tcp/1")) = some n1 ∧
      n1.record "svc" 7 = some { LastSeen := 10, Addrs := ["/ip4/10.0.0.7/tcp/1"] } ∧
      observe n1 "svc"
        (Observation.lookup [{ ID := 7, Addrs := [{ str := "/ip4/10.0.0.7/tcp/2" }] }] 5) =
          some n2 ∧
      n2.record "svc" 7 = some { LastSeen := 5, Addrs := ["/ip4/10.0.0.7/tcp/2"] } :=
  ⟨rfl, ⟨by decide, rfl, by decide, rfl⟩, ⟨by decide, rfl, _, rfl, rfl⟩,
    last_update_wins demoNode "svc" { Topic := "svc", Peers := ∅ } 7 _ _ 10 5 _ _ rfl
      ⟨by decide, rfl, by decide, rfl⟩ ⟨by decide, rfl, _, rfl, rfl⟩⟩

/-- C3. `FindPeers` fails on a topic that is not registered. On a registered
topic it returns a list that, for each identity whose stored record satisfies
`now.Sub(lastSeen) < peerTTL`, holds exactly one entry, carrying the stored
`lastSeen`, and holds no entry for an identity whose record fails the strict
bound or that has no record. In particular a record with
`lastSeen = now - 2h` is absent when `peerTTL = 1h` and present when
`peerTTL = 3h`. -/
theorem FindPeers_live_snapshot (n : ServiceNode) (serviceTopic : String) (now : Time)
    (peerstore : Peerstore) :
    (n.services.lookup serviceTopic = none →
      ∃ err, FindPeers n serviceTopic now peerstore = .error err) ∧
    (∀ service, n.services.lookup serviceTopic = some service →
      ∃ peers, FindPeers n serviceTopic now peerstore = .ok peers ∧
        (∀ id d, service.Peers.lookup id = some d → Time.Sub now d.LastSeen < n.peerTTL →
          (peers.filter (fun e => decide (e.ID = id))).map PeerInfo.LastSeen = [d.LastSeen]) ∧
        (∀ id d, service.Peers.lookup id = some d → ¬ Time.Sub now d.LastSeen < n.peerTTL →
          ∀ e ∈ peers, e.ID ≠ id) ∧
        (∀ id, service.Peers.lookup id = none → ∀ e ∈ peers, e.ID ≠ id) ∧
        (∀ id d, service.Peers.lookup id = some d → d.LastSeen = now - 2 * Hour →
          (n.peerTTL = Hour → ∀ e ∈ peers, e.ID ≠ id) ∧
          (n.peerTTL = 3 * Hour →
            (peers.filter (fun e => decide (e.ID = id))).map PeerInfo.LastSeen =
              [now - 2 * Hour]))) := by
  constructor
  · intro hs
    refine ⟨"service not found: " ++ serviceTopic, ?_⟩
    simp [FindPeers, hs]
  · intro service hs
    obtain ⟨peers, hp, hf⟩ := FindPeers_filter hs now peerstore
    have absent : ∀ id, peers.filter (fun e => decide (e.ID = id)) = [] →
        ∀ e ∈ peers, e.ID ≠ id := by
      intro id h e he hid
      have : e ∈ peers.filter (fun e => decide (e.ID = id)) :=
        List.mem_filter.2 ⟨he, by simpa using hid⟩
      rw [h] at this
      cases this
    have live : ∀ id d, service.Peers.lookup id = some d →
        Time.Sub now d.LastSeen < n.peerTTL →
        (peers.filter (fun e => decide (e.ID = id))).map PeerInfo.LastSeen = [d.LastSeen] := by
      intro id d hd hl
      rw [hf id, hd]
      simp [hl]
    have stale : ∀ id d, service.Peers.lookup id = some d →
        ¬ Time.Sub now d.LastSeen < n.peerTTL → ∀ e ∈ peers, e.ID ≠ id := by
      intro id d hd hl
      apply absent
      rw [hf id, hd]
      simp [hl]
    refine ⟨peers, hp, live, stale, ?_, ?_⟩
    · intro id hd
      apply absent
      rw [hf id, hd]
    · intro id d hd hseen
      have hsub : Time.Sub now d.LastSeen = 2 * Hour := by rw [hseen, Sub_two_hours]
      constructor
      · intro httl
        apply stale id d hd
        rw [hsub, httl]
        decide
      · intro httl
        rw [← hseen]
        apply live id d hd
        rw [hsub, httl]
        decide

/-- Witness of `FindPeers_live_snapshot`: peer `7`, seen at time `0`, read at
time `2h`, is absent under a time-to-live of `1h` and present under `3h`; an
unregistered topic gives an error. -/
theorem FindPeers_live_snapshot_witness :
    (∃ err, FindPeers (seenSeven Hour) "other" (2 * Hour) (bookOfSeven "/ip4/10.0.0.7/tcp/1") =
      .error err) ∧
    (∃ peers, FindPeers (seenSeven Hour) "svc" (2 * Hour) (bookOfSeven "/ip4/10.0.0.7/tcp/1") =
      .ok peers ∧ ∀ e ∈ peers, e.ID ≠ 7) ∧
    (∃ peers, FindPeers (seenSeven (3 * Hour)) "svc" (2 * Hour)
        (bookOfSeven "/ip4/10.0.0.7/tcp/1") = .ok peers ∧
      (peers.filter (fun e => decide (e.ID = 7))).map PeerInfo.LastSeen = [2 * Hour - 2 * Hour]) := by
  refine ⟨(FindPeers_live_snapshot (seenSeven Hour) "other" (2 * Hour) _).1 rfl, ?_, ?_⟩
  · obtain ⟨peers, hp, _, _, _, h⟩ :=
      (FindPeers_live_snapshot (seenSeven Hour) "svc" (2 * Hour)
        (bookOfSeven "/ip4/10.0.0.7/tcp/1")).2 _ rfl
    exact ⟨peers, hp, (h 7 { LastSeen := 0, Addrs := ["/ip4/10.0.0.7/tcp/1"] } rfl rfl).1 rfl⟩
  · obtain ⟨peers, hp, _, _, _, h⟩ :=
      (FindPeers_live_snapshot (seenSeven (3 * Hour)) "svc" (2 * Hour)
        (bookOfSeven "/ip4/10.0.0.7/tcp/1")).2 _ rfl
    exact ⟨peers, hp, (h 7 { LastSeen := 0, Addrs := ["/ip4/10.0.0.7/tcp/1"] } rfl rfl).2 rfl⟩

/-- C4. With a successful gossip join, `RegisterService` returns an error if
and only if the topic is already registered. In that case (whatever the join
would do) the node is left exactly as it was: the registered topics, every
directory and the started loops. When the topic is not yet registered the
call adds it with an empty peer directory and every other topic keeps its
directory. -/
theorem RegisterService_spec (n : ServiceNode) (serviceTopic : String) :
    ((RegisterService n serviceTopic (.ok ())).1.isSome ↔
      (n.services.lookup serviceTopic).isSome) ∧
    (∀ join, (n.services.lookup serviceTopic).isSome →
      (RegisterService n serviceTopic join).1.isSome ∧
        (RegisterService n serviceTopic join).2 = n) ∧
    (n.services.lookup serviceTopic = none →
      (RegisterService n serviceTopic (.ok ())).2.services.lookup serviceTopic =
          some { Topic := serviceTopic, Peers := ∅ } ∧
        ∀ other, other ≠ serviceTopic →
          (RegisterService n serviceTopic (.ok ())).2.services.lookup other =
            n.services.lookup other) := by
  refine ⟨?_, ?_, ?_⟩
  · cases h : n.services.lookup serviceTopic with
    | none => simp [(RegisterService_fresh_ok h).1]
    | some service =>
      rw [RegisterService_registered (by rw [h]; rfl)]
      simp
  · intro join h
    rw [RegisterService_registered h]
    exact ⟨rfl, rfl⟩
  · intro h
    rw [(RegisterService_fresh_ok h).2]
    exact ⟨AList.lookup_insert _, fun other ho => AList.lookup_insert_ne ho⟩

/-- Witness of `RegisterService_spec`: registering `"svc"` again on `demoNode`
fails and changes nothing; registering `"other"` adds an empty directory and
keeps that of `"svc"`. -/
theorem RegisterService_spec_witness :
    ((RegisterService demoNode "svc" (.error "closed")).1.isSome ∧
      (RegisterService demoNode "svc" (.error "closed")).2 = demoNode) ∧
    ((RegisterService demoNode "other" (.ok ())).2.services.lookup "other" =
        some { Topic := "other", Peers := ∅ } ∧
      ∀ other, other ≠ "other" →
        (RegisterService demoNode "other" (.ok ())).2.services.lookup other =
          demoNode.services.lookup other) :=
  ⟨(RegisterService_spec demoNode "svc").2.1 (.error "closed") rfl,
    (RegisterService_spec demoNode "other").2.2 rfl⟩

/-- C5. `CheckServiceProvider` returns an error if and only if the topic is
not registered. On a registered topic it returns `false` without error when
the identity has no entry in the directory, and otherwise returns a boolean
that is `true` exactly when `now.Sub(lastSeen) < peerTTL` for the stored
entry. -/
theorem CheckServiceProvider_spec (n : ServiceNode) (peerID : PeerID) (serviceTopic : String)
    (now : Time) :
    ((∃ err, CheckServiceProvider n peerID serviceTopic now = .error err) ↔
      n.services.lookup serviceTopic = none) ∧
    (∀ service, n.services.lookup serviceTopic = some service →
      (service.Peers.lookup peerID = none →
        CheckServiceProvider n peerID serviceTopic now = .ok false) ∧
      (∀ data, service.Peers.lookup peerID = some data →
        ∃ live, CheckServiceProvider n peerID serviceTopic now = .ok live ∧
          (live = true ↔ Time.Sub now data.LastSeen < n.peerTTL))) := by
  constructor
  · cases hs : n.services.lookup serviceTopic with
    | none => simp [CheckServiceProvider, hs]
    | some service =>
      cases hd : service.Peers.lookup peerID <;> simp [CheckServiceProvider, hs, hd]
  · intro service hs
    constructor
    · intro hd
      simp [CheckServiceProvider, hs, hd]
    · intro data hd
      refine ⟨decide (Time.Sub now data.LastSeen < n.peerTTL), ?_, ?_⟩
      · simp only [CheckServiceProvider, hs, hd]
      · simp

/-- Witness of `CheckServiceProvider_spec`: on the node that saw peer `7` at
time `0`, peer `7` is live at time `2h` under a time-to-live of `3h`, and
peer `8`, never seen, gives `false`. -/
theorem CheckServiceProvider_spec_witness :
    CheckServiceProvider (seenSeven (3 * Hour)) 8 "svc" (2 * Hour) = .ok false ∧
    ∃ live, CheckServiceProvider (seenSeven (3 * Hour)) 7 "svc" (2 * Hour) = .ok live ∧
      (live = true ↔ Time.Sub (2 * Hour) 0 < (seenSeven (3 * Hour)).peerTTL) :=
  ⟨((CheckServiceProvider_spec (seenSeven (3 * Hour)) 8 "svc" (2 * Hour)).2 _ rfl).1 rfl,
    ((CheckServiceProvider_spec (seenSeven (3 * Hour)) 7 "svc" (2 * Hour)).2 _ rfl).2
      { LastSeen := 0, Addrs := ["/ip4/10.0.0.7/tcp/1"] } rfl⟩

/-- C7 (as stated, false). The node that saw peer `7` at time `0` stores the
address `/ip4/10.0.0.7/tcp/1` for it; read at time `1h` against an address
book with no address for `7`, `FindPeers` returns the live record of `7` with
an empty address list, not the stored one. -/
theorem no_fallback_to_stored_addrs :
    (seenSeven (3 * Hour)).record "svc" 7 =
      some { LastSeen := 0, Addrs := ["/ip4/10.0.0.7/tcp/1"] } ∧
    (fun _ => [] : Peerstore) 7 = [] ∧
    FindPeers (seenSeven (3 * Hour)) "svc" Hour (fun _ => []) =
      .ok [{ ID := 7, Addrs := [], LastSeen := 0 }] := by
  refine ⟨rfl, rfl, rfl⟩

/-- C7 (amended). On a registered topic `FindPeers` returns a list in which
every entry carries the address book's addresses for its identity, rendered
as strings in the same order (the empty list when the address book has none);
the address list stored in the directory record is not consulted. -/
theorem FindPeers_addrs_from_peerstore (n : ServiceNode) (serviceTopic : String)
    (service : ServiceInfo) (now : Time) (peerstore : Peerstore)
    (hs : n.services.lookup serviceTopic = some service) :
    ∃ peers, FindPeers n serviceTopic now peerstore = .ok peers ∧
      ∀ e ∈ peers, e.Addrs = (peerstore e.ID).map Multiaddr.String :=
  ⟨_, FindPeers_registered hs now peerstore, fun _ he => mem_FindPeers_Addrs he⟩

/-- Witness of `FindPeers_addrs_from_peerstore` on the node that saw peer `7`,
read at time `1h` against an empty address book. -/
theorem FindPeers_addrs_from_peerstore_witness :
    (seenSeven (3 * Hour)).services.lookup "svc" =
      some (ServiceInfo.mk "svc" ((∅ : AList (fun _ : PeerID => PeerData)).insert 7
        { LastSeen := 0, Addrs := ["/ip4/10.0.0.7/tcp/1"] })) ∧
    ∃ peers, FindPeers (seenSeven (3 * Hour)) "svc" Hour (fun _ => []) = .ok peers ∧
      ∀ e ∈ peers, e.Addrs = ((fun _ => [] : Peerstore) e.ID).map Multiaddr.String :=
  ⟨rfl, FindPeers_addrs_from_peerstore (seenSeven (3 * Hour)) "svc" _ Hour (fun _ => []) rfl⟩

/-- C8. A routing-lookup tick whose provider lookup fails returns the node
exactly as it was, so every topic's directory is unchanged. On a registered
topic, a following successful tick, completing at `now`, whose results contain
a peer `P` other than the node itself makes `P` present in the topic's
directory; `FindPeers` then shows `P` at every read time that passes the
time-to-live test against `now`, in particular at `now` itself when `peerTTL`
is positive. -/
theorem lookup_fail_open (n : ServiceNode) (serviceTopic : String) :
    (∀ err failedAt, dhtDiscoveryLoop n serviceTopic (.error err) failedAt = some n) ∧
    (∀ service err failedAt peers P now peerstore,
      n.services.lookup serviceTopic = some service → P ∈ peers → P.ID ≠ n.hostID →
      ∃ n1 n2, dhtDiscoveryLoop n serviceTopic (.error err) failedAt = some n1 ∧ n1 = n ∧
        dhtDiscoveryLoop n1 serviceTopic (.ok peers) now = some n2 ∧
        (∃ d, n2.record serviceTopic P.ID = some d ∧ d.LastSeen = now) ∧
        (0 < n.peerTTL →
          ∃ found, FindPeers n2 serviceTopic now peerstore = .ok found ∧
            ∃ e ∈ found, e.ID = P.ID ∧ e.LastSeen = now) ∧
        (∀ readAt, Time.Sub readAt now < n.peerTTL →
          ∃ found, FindPeers n2 serviceTopic readAt peerstore = .ok found ∧
            ∃ e ∈ found, e.ID = P.ID ∧ e.LastSeen = now)) := by
  refine ⟨fun _ _ => rfl, ?_⟩
  intro service err failedAt peers P now peerstore hs hP hself
  obtain ⟨n2, he, _, httl, _, hlast, _, _⟩ := dhtDiscoveryLoop_effect hs peers now
  obtain ⟨pre, p, post, e, hp, hpost⟩ := exists_last_occurrence peers P.ID ⟨P, hP, rfl⟩
  have hrec := hlast P.ID pre p post hself e hp hpost
  have hvis : ∀ readAt, Time.Sub readAt now < n.peerTTL →
      ∃ found, FindPeers n2 serviceTopic readAt peerstore = .ok found ∧
        ∃ e ∈ found, e.ID = P.ID ∧ e.LastSeen = now := by
    intro readAt hl
    cases hs2 : n2.services.lookup serviceTopic with
    | none => simp [ServiceNode.record, hs2] at hrec
    | some service2 =>
      have hd : service2.Peers.lookup P.ID =
          some { LastSeen := now, Addrs := p.Addrs.map Multiaddr.String } := by
        simpa [ServiceNode.record, hs2] using hrec
      exact FindPeers_visible hs2 hd readAt peerstore (by rw [httl]; exact hl)
  refine ⟨n, n2, rfl, rfl, he, ⟨_, hrec, rfl⟩, ?_, hvis⟩
  intro hpos
  exact hvis now (by rw [Sub_self]; exact hpos)

/-- Witness of `lookup_fail_open` on `demoNode` (time-to-live `3h`): a failed
tick, then a tick at time `60` that finds peer `7`; `FindPeers` at time `60`
shows peer `7`. -/
theorem lookup_fail_open_witness :
    dhtDiscoveryLoop demoNode "svc" (.error "timeout") 0 = some demoNode ∧
    ∃ n1 n2, dhtDiscoveryLoop demoNode "svc" (.error "timeout") 0 = some n1 ∧ n1 = demoNode ∧
      dhtDiscoveryLoop n1 "svc"
        (.ok [{ ID := 7, Addrs := [{ str := "/ip4/10.0.0.7/tcp/1" }] }]) 60 = some n2 ∧
      ∃ found, FindPeers n2 "svc" 60 (bookOfSeven "/ip4/10.0.0.7/tcp/1") = .ok found ∧
        ∃ e ∈ found, e.ID = 7 ∧ e.LastSeen = 60 := by
  refine ⟨(lookup_fail_open demoNode "svc").1 "timeout" 0, ?_⟩
  obtain ⟨n1, n2, h1, h2, h3, _, h4, _⟩ :=
    (lookup_fail_open demoNode "svc").2 _ "timeout" 0
      [{ ID := 7, Addrs := [{ str := "/ip4/10.0.0.7/tcp/1" }] }]
      { ID := 7, Addrs := [{ str := "/ip4/10.0.0.7/tcp/1" }] } 60
      (bookOfSeven "/ip4/10.0.0.7/tcp/1") rfl (List.mem_singleton.2 rfl) (by decide)
  exact ⟨n1, n2, h1, h2, h3, h4 (by decide)⟩

/-- C9. One received gossip message on a topic. The node is left exactly as
it was when the message was received from the node itself, when its payload
does not decode to an announcement, when the announced peer identity does not
decode, or when the address book has no address for the announced identity.
Otherwise, on a registered topic, the record of the announced identity
becomes `{lastSeen = the timestamp carried in the message, addresses = the
address book's addresses for that identity}` and every other record, in this
and in every other topic, is unchanged. -/
theorem gossip_subscribe_step (n : ServiceNode) (serviceTopic : String) (msg : Message)
    (peerstore : Peerstore) :
    (msg.ReceivedFrom = n.hostID →
      pubsubDiscoveryLoop n serviceTopic (.ok msg) peerstore = some n) ∧
    (msg.Data = none → pubsubDiscoveryLoop n serviceTopic (.ok msg) peerstore = some n) ∧
    (∀ seenAt, msg.Data = some { PeerID := none, Timestamp := seenAt } →
      pubsubDiscoveryLoop n serviceTopic (.ok msg) peerstore = some n) ∧
    (∀ id seenAt, msg.Data = some { PeerID := some id, Timestamp := seenAt } →
      peerstore id = [] → pubsubDiscoveryLoop n serviceTopic (.ok msg) peerstore = some n) ∧
    (∀ service id seenAt, n.services.lookup serviceTopic = some service →
      msg.ReceivedFrom ≠ n.hostID →
      msg.Data = some { PeerID := some id, Timestamp := seenAt } → peerstore id ≠ [] →
      ∃ n', pubsubDiscoveryLoop n serviceTopic (.ok msg) peerstore = some n' ∧
        n'.record serviceTopic id =
          some { LastSeen := seenAt, Addrs := (peerstore id).map Multiaddr.String } ∧
        (∀ id', id' ≠ id → n'.record serviceTopic id' = n.record serviceTopic id') ∧
        (∀ other id', other ≠ serviceTopic → n'.record other id' = n.record other id')) := by
  refine ⟨?_, ?_, ?_, ?_, ?_⟩
  · intro h
    simp [pubsubDiscoveryLoop, h]
  · intro h
    simp [pubsubDiscoveryLoop, h]
  · intro seenAt h
    simp [pubsubDiscoveryLoop, h]
  · intro id seenAt h hb
    simp [pubsubDiscoveryLoop, h, hb]
  · intro service id seenAt hs hfrom hdata haddrs
    refine ⟨_, pubsubDiscoveryLoop_accepted hs hfrom hdata haddrs, ?_, ?_, ?_⟩
    · rw [record_replace_same n serviceTopic hs, AList.lookup_insert]
      rfl
    · intro id' hne
      rw [record_replace_same n serviceTopic hs, AList.lookup_insert_ne hne]
      simp [ServiceNode.record, hs]
    · intro other id' ho
      exact record_replace_other n serviceTopic other ho _ id'

/-- Witness of `gossip_subscribe_step` on the node that saw peer `7` at time
`0`: an announcement of peer `8` at time `50`, forwarded by peer `2`, while
the address book has an address for `8`, stores the record of `8` and keeps
that of `7`; the same message received from the node itself changes nothing. -/
theorem gossip_subscribe_step_witness :
    pubsubDiscoveryLoop (seenSeven (3 * Hour)) "svc"
      (.ok { ReceivedFrom := 1, Data := some { PeerID := some 8, Timestamp := 50 } })
      (fun _ => [{ str := "/ip4/10.0.0.8/tcp/1" }]) = some (seenSeven (3 * Hour)) ∧
    ∃ n', pubsubDiscoveryLoop (seenSeven (3 * Hour)) "svc"
        (.ok { ReceivedFrom := 2, Data := some { PeerID := some 8, Timestamp := 50 } })
        (fun _ => [{ str := "/ip4/10.0.0.8/tcp/1" }]) = some n' ∧
      n'.record "svc" 8 = some { LastSeen := 50, Addrs := ["/ip4/10.0.0.8/tcp/1"] } ∧
      n'.record "svc" 7 = (seenSeven (3 * Hour)).record "svc" 7 := by
  refine ⟨(gossip_subscribe_step (seenSeven (3 * Hour)) "svc"
    { ReceivedFrom := 1, Data := some { PeerID := some 8, Timestamp := 50 } }
    (fun _ => [{ str := "/ip4/10.0.0.8/tcp/1" }])).1 rfl, ?_⟩
  obtain ⟨n', h1, h2, h3, _⟩ := (gossip_subscribe_step (seenSeven (3 * Hour)) "svc"
    { ReceivedFrom := 2, Data := some { PeerID := some 8, Timestamp := 50 } }
    (fun _ => [{ str := "/ip4/10.0.0.8/tcp/1" }])).2.2.2.2 _ 8 50 rfl (by decide) rfl
      (by simp)
  exact ⟨n', h1, h2, h3 7 (by decide)⟩

/-- C10. A successful routing-lookup tick on a registered topic, completing
at `now` with the result sequence `peers`, gives every identity of the result
other than the node itself the record `{lastSeen = now, addresses = the
addresses of its last occurrence, in the same order}`, whatever was stored
before, and leaves the record of every identity that does not occur in the
result, in this and in every other topic, unchanged. -/
theorem routing_lookup_step (n : ServiceNode) (serviceTopic : String) (service : ServiceInfo)
    (peers : List AddrInfo) (now : Time)
    (hs : n.services.lookup serviceTopic = some service) :
    ∃ n', dhtDiscoveryLoop n serviceTopic (.ok peers) now = some n' ∧
      (∀ id pre p post, id ≠ n.hostID → peers = pre ++ p :: post → p.ID = id →
        (∀ q ∈ post, q.ID ≠ id) →
        n'.record serviceTopic id =
          some { LastSeen := now, Addrs := p.Addrs.map Multiaddr.String }) ∧
      (∀ q ∈ peers, q.ID ≠ n.hostID →
        ∃ p ∈ peers, p.ID = q.ID ∧
          n'.record serviceTopic q.ID =
            some { LastSeen := now, Addrs := p.Addrs.map Multiaddr.String }) ∧
      (∀ id, (∀ q ∈ peers, q.ID ≠ id) → n'.record serviceTopic id = n.record serviceTopic id) ∧
      (∀ other id, other ≠ serviceTopic → n'.record other id = n.record other id) := by
  obtain ⟨n', he, _, _, _, hlast, hrest, hother⟩ := dhtDiscoveryLoop_effect hs peers now
  refine ⟨n', he, hlast, ?_, hrest, ?_⟩
  · intro q hq hself
    obtain ⟨pre, p, post, e, hp, hpost⟩ := exists_last_occurrence peers q.ID ⟨q, hq, rfl⟩
    exact ⟨p, by rw [e]; simp, hp, hlast q.ID pre p post hself e hp hpost⟩
  · intro other id ho
    simp only [ServiceNode.record, hother other ho]

/-- Witness of `routing_lookup_step`: on the node that saw peer `7` at time
`0`, a tick at time `60` that finds peer `7` twice and the node itself once
stores the addresses of the last occurrence of `7`. -/
theorem routing_lookup_step_witness :
    ∃ n', dhtDiscoveryLoop (seenSeven (3 * Hour)) "svc"
        (.ok [{ ID := 7, Addrs := [{ str := "/ip4/10.0.0.7/tcp/2" }] },
          { ID := 7, Addrs := [{ str := "/ip4/10.0.0.7/tcp/3" }, { str := "/ip4/10.0.0.7/tcp/4" }] },
          { ID := 1, Addrs := [] }]) 60 = some n' ∧
      n'.record "svc" 7 =
        some { LastSeen := 60, Addrs := ["/ip4/10.0.0.7/tcp/3", "/ip4/10.0.0.7/tcp/4"] } ∧
      n'.record "svc" 1 = (seenSeven (3 * Hour)).record "svc" 1 := by
  obtain ⟨n', he, hlast, _, hrest, _⟩ := routing_lookup_step (seenSeven (3 * Hour)) "svc" _
    [{ ID := 7, Addrs := [{ str := "/ip4/10.0.0.7/tcp/2" }] },
      { ID := 7, Addrs := [{ str := "/ip4/10.0.0.7/tcp/3" }, { str := "/ip4/10.0.0.7/tcp/4" }] },
      { ID := 1, Addrs := [] }] 60 rfl
  refine ⟨n', he, ?_, ?_⟩
  · exact hlast 7 [{ ID := 7, Addrs := [{ str := "/ip4/10.0.0.7/tcp/2" }] }]
      { ID := 7, Addrs := [{ str := "/ip4/10.0.0.7/tcp/3" }, { str := "/ip4/10.0.0.7/tcp/4" }] }
      [{ ID := 1, Addrs := [] }] (by decide) rfl rfl (by decide)
  · have h1 : some n' = dhtDiscoveryLoop (seenSeven (3 * Hour)) "svc"
        (.ok [{ ID := 7, Addrs := [{ str := "/ip4/10.0.0.7/tcp/2" }] },
          { ID := 7, Addrs := [{ str := "/ip4/10.0.0.7/tcp/3" }, { str := "/ip4/10.0.0.7/tcp/4" }] },
          { ID := 1, Addrs := [] }]) 60 := he.symm
    cases h1
    rfl

/-- C11. `NewClient` fails if and only if no client constructor is registered
for the protocol id or opening the outbound stream fails. When no constructor
is registered it returns the error and leaves the registry and its host as
they were (no stream is opened). When a constructor is registered and the
stream opens, it returns exactly the value that constructor produces for the
session of the stream; after `RegisterClientConstructor` that constructor is
the one registered last for the protocol id, and a registration for another
protocol id does not change the constructor looked up for this one.
`NewServiceClient` is `NewClient` on the node's registry. -/
theorem NewClient_spec (r : registry) (ptcID : String) (targetPeer : PeerID)
    (newStream : Except String Stream) :
    ((∃ err, (r.NewClient ptcID targetPeer newStream).1 = .error err) ↔
      (r.clientConstructors.lookup ptcID = none ∨ ∃ err, newStream = .error err)) ∧
    (r.clientConstructors.lookup ptcID = none →
      (∃ err, (r.NewClient ptcID targetPeer newStream).1 = .error err) ∧
        (r.NewClient ptcID targetPeer newStream).2 = r) ∧
    (∀ constructor s, r.clientConstructors.lookup ptcID = some constructor →
      newStream = .ok s →
      (r.NewClient ptcID targetPeer newStream).1 = .ok (constructor (NewRpcPeer s)) ∧
        (r.NewClient ptcID targetPeer newStream).2.newStreams =
          r.newStreams ++ [(targetPeer, ptcID)]) ∧
    (∀ constructor s,
      ((r.RegisterClientConstructor ptcID constructor).NewClient ptcID targetPeer (.ok s)).1 =
        .ok (constructor (NewRpcPeer s))) ∧
    (∀ other constructor, other ≠ ptcID →
      (r.RegisterClientConstructor other constructor).clientConstructors.lookup ptcID =
        r.clientConstructors.lookup ptcID) ∧
    NewServiceClient r ptcID targetPeer newStream = r.NewClient ptcID targetPeer newStream := by
  refine ⟨?_, ?_, ?_, ?_, ?_, rfl⟩
  · cases hc : r.clientConstructors.lookup ptcID with
    | none => simp [registry.NewClient, hc]
    | some constructor =>
      cases newStream with
      | error err => simp [registry.NewClient, hc]
      | ok s => simp [registry.NewClient, hc]
  · intro hc
    simp [registry.NewClient, hc]
  · intro constructor s hc hs
    subst hs
    simp [registry.NewClient, hc]
  · intro constructor s
    simp [registry.NewClient, registry.RegisterClientConstructor, AList.lookup_insert]
  · intro other constructor ho
    exact AList.lookup_insert_ne (Ne.symm ho)

/-- Witness of `NewClient_spec`: a fresh registry has no constructor for the
peer-exchange protocol, so `NewClient` fails and opens no stream; once
`NewServicePeerClient` is registered, `NewClient` towards peer `7` returns
the client that constructor builds on the opened stream. -/
theorem NewClient_spec_witness :
    ((∃ err, (NewRegistry.NewClient PeerExchangeProtocolID 7 (.ok { id := 3 })).1 =
        .error err) ∧
      (NewRegistry.NewClient PeerExchangeProtocolID 7 (.ok { id := 3 })).2 = NewRegistry) ∧
    ((NewRegistry.RegisterClientConstructor PeerExchangeProtocolID NewServicePeerClient).NewClient
        PeerExchangeProtocolID 7 (.ok { id := 3 })).1 =
      .ok { kind := "ServicePeerClient", peer := { stream := { id := 3 } } } :=
  ⟨(NewClient_spec NewRegistry PeerExchangeProtocolID 7 (.ok { id := 3 })).2.1 rfl,
    ((NewClient_spec
      (NewRegistry.RegisterClientConstructor PeerExchangeProtocolID NewServicePeerClient)
      PeerExchangeProtocolID 7 (.ok { id := 3 })).2.2.1 NewServicePeerClient { id := 3 }
      rfl rfl).1⟩

/-- C12 (as stated, false). On `bareNode` the topic `"svc"` is not registered
and the registry binds `"svc"` to `oldSvcHandler`; a
`RegisterServiceHandler(svcHandler)` whose gossip join fails returns the join
error, after which `"svc"` is still not registered and still bound to
`oldSvcHandler`, not to `svcHandler`. -/
theorem failed_join_binds_nothing :
    bareNode.services.lookup svcHandler.Protocol = none ∧
    (RegisterServiceHandler bareNode boundRegistry svcHandler (.error "context canceled")).1 =
      some "failed to join topic: context canceled" ∧
    (RegisterServiceHandler bareNode boundRegistry svcHandler
      (.error "context canceled")).2.1.services.lookup svcHandler.Protocol = none ∧
    (RegisterServiceHandler bareNode boundRegistry svcHandler
      (.error "context canceled")).2.2.streamHandlers.lookup svcHandler.Protocol =
        some oldSvcHandler ∧
    some oldSvcHandler ≠ some svcHandler := by
  refine ⟨rfl, by decide, rfl, rfl, by decide⟩

/-- C12 (amended). `RegisterServiceHandler(handler)` is
`RegisterService(handler.Protocol())` followed by binding the handler in the
registry. If the topic `handler.Protocol()` is already registered it returns
the registration error and leaves the node and the registry, hence the
binding of that protocol id, unchanged. Otherwise, when the gossip join
succeeds or gossip discovery is disabled, it returns no error, the topic
becomes registered with an empty directory and the protocol id is bound to
this handler, replacing any earlier binding and leaving the bindings of other
ids unchanged. Otherwise, when the gossip join fails, it returns the join
error, the topic is not registered and the registry is unchanged. -/
theorem RegisterServiceHandler_spec (n : ServiceNode) (r : registry) (handler : ServiceHandler)
    (join : Except String Unit) :
    ((n.services.lookup handler.Protocol).isSome →
      RegisterServiceHandler n r handler join =
        (some ("service " ++ handler.Protocol ++ " already registered"), n, r)) ∧
    (n.services.lookup handler.Protocol = none → (n.pubsub = false ∨ join = .ok ()) →
      (RegisterServiceHandler n r handler join).1 = none ∧
      (RegisterServiceHandler n r handler join).2.1 =
        (RegisterService n handler.Protocol join).2 ∧
      (RegisterServiceHandler n r handler join).2.2 = (r.RegisterService handler).2 ∧
      (RegisterServiceHandler n r handler join).2.1.services.lookup handler.Protocol =
        some { Topic := handler.Protocol, Peers := ∅ } ∧
      (RegisterServiceHandler n r handler join).2.2.streamHandlers.lookup handler.Protocol =
        some handler ∧
      ∀ other, other ≠ handler.Protocol →
        (RegisterServiceHandler n r handler join).2.2.streamHandlers.lookup other =
          r.streamHandlers.lookup other) ∧
    (∀ err, n.services.lookup handler.Protocol = none → n.pubsub = true →
      join = .error err →
      (RegisterServiceHandler n r handler join).1 = some ("failed to join topic: " ++ err) ∧
      (RegisterServiceHandler n r handler join).2.1.services.lookup handler.Protocol = none ∧
      (RegisterServiceHandler n r handler join).2.2 = r) := by
  refine ⟨?_, ?_, ?_⟩
  · intro h
    simp [RegisterServiceHandler, RegisterService_registered h]
  · intro h hj
    obtain ⟨h1, h2⟩ := RegisterService_fresh_joined h hj
    have e : RegisterServiceHandler n r handler join =
        (none, (RegisterService n handler.Protocol join).2, (r.RegisterService handler).2) := by
      unfold RegisterServiceHandler
      rw [h1]
      rfl
    rw [e]
    refine ⟨rfl, rfl, rfl, ?_, ?_, ?_⟩
    · show (RegisterService n handler.Protocol join).2.services.lookup _ = _
      rw [h2, AList.lookup_insert]
    · exact AList.lookup_insert _
    · intro other ho
      exact AList.lookup_insert_ne ho
  · intro err h hp hj
    subst hj
    obtain ⟨h1, h2⟩ := RegisterService_fresh_failed h hp err
    have e : RegisterServiceHandler n r handler (.error err) =
        (some ("failed to join topic: " ++ err),
          (RegisterService n handler.Protocol (.error err)).2, r) := by
      unfold RegisterServiceHandler
      rw [h1]
    rw [e]
    refine ⟨rfl, ?_, rfl⟩
    show (RegisterService n handler.Protocol (.error err)).2.services.lookup _ = _
    rw [h2, h]

/-- Witness of `RegisterServiceHandler_spec`: on `bareNode` with a successful
join the handler `svcHandler` replaces `oldSvcHandler`; on `demoNode`, where
`"svc"` is registered, the call fails and changes nothing. -/
theorem RegisterServiceHandler_spec_witness :
    RegisterServiceHandler demoNode boundRegistry svcHandler (.ok ()) =
      (some ("service " ++ svcHandler.Protocol ++ " already registered"), demoNode,
        boundRegistry) ∧
    ((RegisterServiceHandler bareNode boundRegistry svcHandler (.ok ())).1 = none ∧
      (RegisterServiceHandler bareNode boundRegistry svcHandler (.ok ())).2.1 =
        (RegisterService bareNode svcHandler.Protocol (.ok ())).2 ∧
      (RegisterServiceHandler bareNode boundRegistry svcHandler (.ok ())).2.2 =
        (boundRegistry.RegisterService svcHandler).2 ∧
      (RegisterServiceHandler bareNode boundRegistry svcHandler
        (.ok ())).2.1.services.lookup svcHandler.Protocol =
          some { Topic := svcHandler.Protocol, Peers := ∅ } ∧
      (RegisterServiceHandler bareNode boundRegistry svcHandler
        (.ok ())).2.2.streamHandlers.lookup svcHandler.Protocol = some svcHandler ∧
      ∀ other, other ≠ svcHandler.Protocol →
        (RegisterServiceHandler bareNode boundRegistry svcHandler
          (.ok ())).2.2.streamHandlers.lookup other =
            boundRegistry.streamHandlers.lookup other) ∧
    ((RegisterServiceHandler bareNode boundRegistry svcHandler (.error "closed")).1 =
        some ("failed to join topic: " ++ "closed") ∧
      (RegisterServiceHandler bareNode boundRegistry svcHandler
        (.error "closed")).2.1.services.lookup svcHandler.Protocol = none ∧
      (RegisterServiceHandler bareNode boundRegistry svcHandler (.error "closed")).2.2 =
        boundRegistry) :=
  ⟨(RegisterServiceHandler_spec demoNode boundRegistry svcHandler (.ok ())).1 rfl,
    (RegisterServiceHandler_spec bareNode boundRegistry svcHandler (.ok ())).2.1 rfl
      (Or.inr rfl),
    (RegisterServiceHandler_spec bareNode boundRegistry svcHandler (.error "closed")).2.2
      "closed" rfl rfl rfl⟩

/-- C13. Idempotence: on a registered topic, for every identity `id`, address
list `a` and time `t`, applying the update `(id, a, t)` (a gossip
announcement against an address book, or a routing result at a completion
time) and then the same update again stores `{t, a}` for `id` the first time,
and the second application leaves every record of every directory, and the
set of registered topics, as they were after the first. -/
theorem update_idempotent (n : ServiceNode) (serviceTopic : String) (service : ServiceInfo)
    (id : PeerID) (a : List String) (t : Time) (o : Observation)
    (hs : n.services.lookup serviceTopic = some service)
    (ho : o.Updates n.hostID id a t) :
    ∃ n1 n2, observe n serviceTopic o = some n1 ∧
      n1.record serviceTopic id = some { LastSeen := t, Addrs := a } ∧
      observe n1 serviceTopic o = some n2 ∧
      (∀ topic id', n2.record topic id' = n1.record topic id') ∧
      (∀ topic, (n2.services.lookup topic).isSome = (n1.services.lookup topic).isSome) := by
  obtain ⟨n1, n2, e1, e2, hrec, hreg⟩ := observe_twice hs ho
  obtain ⟨n1', _, e1', _, _, r1⟩ := observe_record hs ho
  have : n1' = n1 := Option.some.inj (e1'.symm.trans e1)
  subst this
  exact ⟨n1', n2, e1, r1, e2, hrec, hreg⟩

/-- Witness of `update_idempotent`: the announcement of peer `7` at time `10`
handled twice on `demoNode` against the same address book. -/
theorem update_idempotent_witness :
    ∃ n1 n2,
      observe demoNode "svc"
        (Observation.gossip (announceSeven 10) (bookOfSeven "/ip4/10.0.0.7/tcp/1")) = some n1 ∧
      n1.record "svc" 7 = some { LastSeen := 10, Addrs := ["/ip4/10.0.0.7/tcp/1"] } ∧
      observe n1 "svc"
        (Observation.gossip (announceSeven 10) (bookOfSeven "/ip4/10.0.0.7/tcp/1")) = some n2 ∧
      (∀ topic id', n2.record topic id' = n1.record topic id') ∧
      (∀ topic, (n2.services.lookup topic).isSome = (n1.services.lookup topic).isSome) :=
  update_idempotent demoNode "svc" { Topic := "svc", Peers := ∅ } 7 _ 10 _ rfl
    ⟨by decide, rfl, by decide, rfl⟩

/-- C14. No eviction: whichever operation a node performs (`RegisterService`,
`FindPeers`, `CheckServiceProvider`, a failing or successful routing-lookup
tick, a gossip message), in the state it leaves behind every topic registered
before is still registered and every identity that had a record in a topic's
directory still has one. The interface calls always complete, and so do the
loop iterations on a registered topic. -/
theorem no_eviction (n : ServiceNode) (op : Operation) :
    (∀ n', op.run n = some n' →
      (∀ topic, (n.services.lookup topic).isSome = true →
        (n'.services.lookup topic).isSome = true) ∧
      (∀ topic id, (n.record topic id).isSome = true → (n'.record topic id).isSome = true)) ∧
    (op.OnRegistered n → ∃ n', op.run n = some n') := by
  constructor
  · intro n' he
    show NoEviction n n'
    cases op with
    | registerService serviceTopic join =>
      cases he
      exact NoEviction_RegisterService n serviceTopic join
    | findPeers serviceTopic now peerstore =>
      cases he
      exact NoEviction_refl n
    | checkServiceProvider peerID serviceTopic now =>
      cases he
      exact NoEviction_refl n
    | dhtTick serviceTopic found now => exact NoEviction_dhtDiscoveryLoop he
    | gossip serviceTopic next peerstore => exact NoEviction_pubsubDiscoveryLoop he
  · intro hreg
    cases op with
    | registerService serviceTopic join => exact ⟨_, rfl⟩
    | findPeers serviceTopic now peerstore => exact ⟨_, rfl⟩
    | checkServiceProvider peerID serviceTopic now => exact ⟨_, rfl⟩
    | dhtTick serviceTopic found now =>
      cases found with
      | error err => exact ⟨n, rfl⟩
      | ok peers =>
        cases hs : n.services.lookup serviceTopic with
        | none =>
          have h : (n.services.lookup serviceTopic).isSome = true := hreg
          rw [hs] at h
          cases h
        | some service => exact ⟨_, dhtDiscoveryLoop_registered hs peers now⟩
    | gossip serviceTopic next peerstore =>
      rcases pubsubDiscoveryLoop_cases n serviceTopic next peerstore with
        ⟨_, hnone⟩ | h | ⟨_, _, _, _, h⟩
      · have h : (n.services.lookup serviceTopic).isSome = true := hreg
        rw [hnone] at h
        cases h
      · exact ⟨_, h⟩
      · exact ⟨_, h⟩

/-- Witness of `no_eviction`: on the node that saw peer `7` at time `0`, a
tick at time `60` that finds only peer `8` completes and keeps the record of
peer `7`. -/
theorem no_eviction_witness :
    ∃ n', (Operation.dhtTick "svc" (.ok [{ ID := 8, Addrs := [] }]) 60).run
        (seenSeven (3 * Hour)) = some n' ∧
      (n'.services.lookup "svc").isSome = true ∧ (n'.record "svc" 7).isSome = true := by
  obtain ⟨n', h⟩ := (no_eviction (seenSeven (3 * Hour))
    (Operation.dhtTick "svc" (.ok [{ ID := 8, Addrs := [] }]) 60)).2 rfl
  have hk := (no_eviction (seenSeven (3 * Hour))
    (Operation.dhtTick "svc" (.ok [{ ID := 8, Addrs := [] }]) 60)).1 n' h
  exact ⟨n', h, hk.1 "svc" rfl, hk.2 "svc" 7 rfl⟩

/-- C6. Clean abort of a failed registration: on every node with routing and
gossip discovery enabled and every topic not yet registered, when the gossip
join fails during `RegisterService` (the gossip substrate refuses a join only
once `n.ctx` is done), the call returns the join error, the topic is not
registered, and no loop is left running: the routing-lookup loop of the
topic, started before the join, finds its context done and returns at its
first `select`. -/
theorem failed_registration_aborts (n : ServiceNode) (serviceTopic : String) (err : String)
    (hd : n.dht = true) (hp : n.pubsub = true)
    (hs : n.services.lookup serviceTopic = none)
    (hj : joinPossible n (.error err) = true) :
    (RegisterService n serviceTopic (.error err)).1 =
      some ("failed to join topic: " ++ err) ∧
    (RegisterService n serviceTopic (.error err)).2.services.lookup serviceTopic = none ∧
    Goroutine.dhtDiscoveryLoop serviceTopic ∈
      (RegisterService n serviceTopic (.error err)).2.goroutines ∧
    ¬ (RegisterService n serviceTopic (.error err)).2.Running
      (Goroutine.dhtDiscoveryLoop serviceTopic) ∧
    ∀ g, ¬ (RegisterService n serviceTopic (.error err)).2.Running g := by
  have hdone : n.ctxDone = true := hj
  have hnot : ∀ g, ¬ (RegisterService n serviceTopic (.error err)).2.Running g := by
    intro g hg
    have h := hg.2
    rw [RegisterService_ctxDone, hdone] at h
    cases h
  rw [RegisterService_join_failed hd hp hs err]
  rw [RegisterService_join_failed hd hp hs err] at hnot
  exact ⟨rfl, hs, by simp, hnot _, hnot⟩

/-- Witness of `failed_registration_aborts`: on the closed node the join of
`"svc"` is refused with `context canceled`. -/
theorem failed_registration_aborts_witness :
    closedNode.dht = true ∧ closedNode.pubsub = true ∧
    closedNode.services.lookup "svc" = none ∧
    joinPossible closedNode (.error "context canceled") = true ∧
    (RegisterService closedNode "svc" (.error "context canceled")).1 =
      some ("failed to join topic: " ++ "context canceled") ∧
    (RegisterService closedNode "svc" (.error "context canceled")).2.services.lookup "svc" =
      none ∧
    Goroutine.dhtDiscoveryLoop "svc" ∈
      (RegisterService closedNode "svc" (.error "context canceled")).2.goroutines ∧
    ¬ (RegisterService closedNode "svc" (.error "context canceled")).2.Running
      (Goroutine.dhtDiscoveryLoop "svc") ∧
    ∀ g, ¬ (RegisterService closedNode "svc" (.error "context canceled")).2.Running g :=
  ⟨rfl, rfl, rfl, rfl,
    failed_registration_aborts closedNode "svc" "context canceled" rfl rfl rfl rfl⟩

/-- C15. Directory lookup in the background loops is safe: in every state of
a run of a freshly created node (`RegisterService` calls, also ones whose
gossip join fails, loop iterations, `Close`), a running routing-lookup or
gossip loop belongs to a topic that is present in the services map, so the
`ServiceInfo` the loop looks up is not nil and every tick and every message
is handled without a panic. -/
theorem loop_directory_present (h : PeerID) (cfg : Config)
    (dhtNew pubsubNew join : Except String Unit) (n0 n : ServiceNode)
    (serviceTopic : String)
    (hfresh : NewServiceNode h cfg dhtNew pubsubNew join = .ok n0) (hr : Runs n0 n) :
    (n.Running (Goroutine.dhtDiscoveryLoop serviceTopic) →
      (∃ service, n.services.lookup serviceTopic = some service) ∧
        ∀ found now, ∃ n', dhtDiscoveryLoop n serviceTopic found now = some n') ∧
    (n.Running (Goroutine.pubsubDiscoveryLoop serviceTopic) →
      (∃ service, n.services.lookup serviceTopic = some service) ∧
        ∀ next peerstore, ∃ n',
          pubsubDiscoveryLoop n serviceTopic next peerstore = some n') := by
  have hinv := LoopsRegistered_Runs (NewServiceNode_LoopsRegistered hfresh) hr
  constructor
  · intro hrun
    have hreg := hinv hrun.2 _ hrun.1
    refine ⟨Option.isSome_iff_exists.1 hreg, fun found now => ?_⟩
    exact dhtDiscoveryLoop_completes hreg found now
  · intro hrun
    have hreg := hinv hrun.2 _ hrun.1
    refine ⟨Option.isSome_iff_exists.1 hreg, fun next peerstore => ?_⟩
    exact pubsubDiscoveryLoop_completes hreg next peerstore

/-- Witness of `loop_directory_present`: a node created with the default
configuration registers `"svc"`; the routing-lookup loop of `"svc"` is then
running, `"svc"` is in the services map and a tick that finds peer `7` is
handled. -/
theorem loop_directory_present_witness :
    ∃ n0, NewServiceNode 1 DefaultConfig (.ok ()) (.ok ()) (.ok ()) = .ok n0 ∧
      Runs n0 (RegisterService n0 "svc" (.ok ())).2 ∧
      (RegisterService n0 "svc" (.ok ())).2.Running (Goroutine.dhtDiscoveryLoop "svc") ∧
      (∃ service, (RegisterService n0 "svc" (.ok ())).2.services.lookup "svc" = some service) ∧
      ∃ n', dhtDiscoveryLoop (RegisterService n0 "svc" (.ok ())).2 "svc"
        (.ok [{ ID := 7, Addrs := [{ str := "/ip4/10.0.0.7/tcp/1" }] }]) 60 = some n' := by
  refine ⟨_, rfl, Runs.register "svc" (.ok ()) Runs.init rfl, ⟨by decide, rfl⟩, ?_⟩
  have h := (loop_directory_present 1 DefaultConfig (.ok ()) (.ok ()) (.ok ()) _ _ "svc" rfl
    (Runs.register "svc" (.ok ()) Runs.init rfl)).1 ⟨by decide, rfl⟩
  exact ⟨h.1, h.2 _ 60⟩

end Discovery
